import Mathlib

/-!
Verification of the Midas mailing scheduler core.

This file gives a shallow embedding of the scheduler/dispatcher logic of
`app/task_runner.py` and the dispatch decision logic of
`app/telegram_client.py`, together with theorems about the quota
invariants, task selection, retry behaviour, logging and sleep
computation of that code.

Modelling conventions:
* Timestamps (`datetime.utcnow()` / `date.today()`) are natural numbers
  (epoch seconds); the calendar date of a timestamp is `ts / 86400`.
* The SQLite store is a `Store` value; each `commit` is modelled by
  threading the updated value.  `db.get(Model, id)` is `find?` by id.
* Randomness (`random.choice`, `random.uniform`) is an explicit oracle
  argument (`pick` index, a draw parameter `r ∈ [0, 1]`).
* The external Telethon calls are an oracle `DispatchEnv` / `CallOutcome`
  describing what the network operations returned or raised.
* Raised exceptions that escape a function are modelled with an explicit
  `raised : Option String` field on the result.
-/

namespace Midas

/-- Task status column: "active" | "paused" | "completed" | "error". -/
inductive Status where
  | active
  | paused
  | completed
  | error
  deriving DecidableEq, Repr

/-- One `MailingTask` row (`app/database.py`, class `MailingTask`).
`targets` is the decoded `target_chat_ids` JSON list, `forwardSource`
the decoded `forward_source` pair `(chat_id, message_id)`.  Limits are
integers (`0` = unlimited), counters are naturals, timestamps are epoch
seconds. -/
structure Task where
  id : Nat
  sessionId : Nat
  targets : List Int
  messageType : String
  messageText : Option String
  forwardSource : Option (Int × Int)
  mediaPathSet : Bool
  intervalMinSec : Int
  intervalMaxSec : Int
  dailyLimit : Int
  totalLimit : Int
  status : Status
  errorMessage : Option String
  sentToday : Nat
  sentTotal : Nat
  lastSentAt : Option Nat
  lastResetAt : Option Nat
  deriving DecidableEq, Repr

/-- One `TelegramSession` row (only the fields the runner reads). -/
structure Sess where
  id : Nat
  isActive : Bool
  deriving DecidableEq, Repr

/-- One `SendLog` row (`SendAttempt` of the spec). -/
structure SendAttempt where
  taskId : Nat
  chatId : Int
  success : Bool
  message : String
  deriving DecidableEq, Repr

/-- One `ErrorLog` row (`ErrorEvent` of the spec). -/
structure ErrorEvent where
  taskId : Option Nat
  level : String
  message : String
  details : Option String
  deriving DecidableEq, Repr

/-- The durable store: task rows, session rows and the two append-only
log tables. -/
structure Store where
  tasks : List Task
  sessions : List Sess
  sendLogs : List SendAttempt
  errorLogs : List ErrorEvent
  deriving DecidableEq, Repr

/-- Row lookup by primary key in a list of task rows. -/
def findTask (l : List Task) (id : Nat) : Option Task :=
  l.find? (fun t => t.id == id)

/-- Mutate the task row with the given id in a list of task rows. -/
def updList (id : Nat) (f : Task → Task) (l : List Task) : List Task :=
  l.map (fun t => if t.id = id then f t else t)

/-- `db.get(MailingTask, id)`. -/
def getTask (st : Store) (id : Nat) : Option Task :=
  findTask st.tasks id

/-- `db.get(TelegramSession, id)`. -/
def getSess (st : Store) (id : Nat) : Option Sess :=
  st.sessions.find? (fun s => s.id == id)

/-- Mutate-and-commit of the task row with the given id. -/
def updTask (st : Store) (id : Nat) (f : Task → Task) : Store :=
  { st with tasks := updList id f st.tasks }

/-- `db.add(SendLog(...)); db.commit()`. -/
def addSendLog (st : Store) (l : SendAttempt) : Store :=
  { st with sendLogs := st.sendLogs ++ [l] }

/-- `_log_error` (`task_runner.py`, lines 43-47): append one `ErrorLog`
row in its own session and commit. -/
def addErrorLog (st : Store) (l : ErrorEvent) : Store :=
  { st with errorLogs := st.errorLogs ++ [l] }

/-- Calendar date of an epoch-second timestamp. -/
def dayOf (ts : Nat) : Nat := ts / 86400

/-- `_need_reset_daily` (`task_runner.py`, lines 29-32): true iff
`last_reset_at` is null or its calendar date precedes today. -/
def need_reset_daily (now : Nat) (task : Task) : Bool :=
  match task.lastResetAt with
  | none => true
  | some r => dayOf now > dayOf r

/-- `_reset_daily_if_needed` (`task_runner.py`, lines 35-40): when a
reset is due, zero `sent_today` and stamp `last_reset_at`; otherwise
leave the row unchanged. -/
def reset_daily_if_needed (now : Nat) (task : Task) : Task :=
  if need_reset_daily now task then
    { task with sentToday := 0, lastResetAt := some now }
  else task

/-- `FORWARD_BLOCKLIST` (`telegram_client.py`, line 11). -/
def FORWARD_BLOCKLIST : List String :=
  ["шерлок", "sherlock", "бот шерлок", "sherlock bot"]

/-- Python `needle in hay` on strings viewed as character lists:
contiguous-substring test (true on an empty needle). -/
def hasSubList (needle : List Char) : List Char → Bool
  | [] => needle.isEmpty
  | c :: rest => needle.isPrefixOf (c :: rest) || hasSubList needle rest

/-- Python `str.lower()` on one character, for the scripts the
blocklist involves: the Unicode simple lowercase mapping on ASCII
`A`-`Z`, Cyrillic `А`-`Я` (U+0410-U+042F, offset +0x20) and `Ё`
(U+0401 → U+0451).  Characters of other scripts are left unchanged:
their Python lowercase forms are never characters of a lowered
blocklist phrase (ASCII lowercase, Cyrillic lowercase, space), so they
cannot affect the substring test below. -/
def pyLower (c : Char) : Char :=
  if 65 ≤ c.toNat ∧ c.toNat ≤ 90 then Char.ofNat (c.toNat + 32)
  else if 0x410 ≤ c.toNat ∧ c.toNat ≤ 0x42F then Char.ofNat (c.toNat + 32)
  else if c.toNat = 0x401 then Char.ofNat 0x451
  else c

/-- Python `str.lower()` viewed character-wise. -/
def lowerChars (s : String) : List Char := s.toList.map pyLower

/-- The blocklist check of `send_or_forward_one` (`telegram_client.py`,
lines 248-252): some phrase, lowercased, occurs in the lowercased text. -/
def isBlocked (text : String) : Bool :=
  FORWARD_BLOCKLIST.any
    (fun p => hasSubList (lowerChars p) (lowerChars text))

/-- Failure message returned on a blocklist hit
(`telegram_client.py`, line 252). -/
def BLOCK_MSG : String := "Сообщение не пересылается: содержимое в блок-листе."

/-- What one call to `send_or_forward_one` produces, as seen by its
caller: a returned `(success, message)` pair, or a raised
`FloodWaitError` (the only exception the function lets escape — its
`except (ValueError, RPCError)` and `except Exception` arms convert
everything else into a returned failure). -/
inductive SendResult where
  | ret (success : Bool) (msg : String)
  | floodWait (seconds : Nat)
  deriving DecidableEq, Repr

/-- Oracle for the external effects inside `send_or_forward_one`:
`early` is a returned-or-raised outcome produced before the content
branch (peer resolution, source fetch); `albumText` is the combined
text of the forwarded message or album; `mediaExists` is
`Path(path).exists()`; `net` is the outcome of the actual
`forward_messages` / `send_message` / `send_file` call. -/
structure DispatchEnv where
  early : Option SendResult
  albumText : String
  mediaExists : Bool
  net : SendResult
  deriving DecidableEq, Repr

/-- `send_or_forward_one` (`telegram_client.py`, lines 197-292):
the pure decision structure of one dispatch, with the wire calls
abstracted into `e`. -/
def send_or_forward_one (task : Task) (e : DispatchEnv) : SendResult :=
  match e.early with
  | some r => r
  | none =>
    if task.messageType = "forward" then
      match task.forwardSource with
      | none => .ret false ("forward_source not set")
      | some _ =>
        if isBlocked e.albumText then .ret false BLOCK_MSG
        else e.net
    else if task.messageType ∈ (["text", "html", "markdown"] : List String) then
      if (task.messageText.getD "").trim = "" then
        .ret false ("message_text пустой")
      else e.net
    else if task.messageType = "media" then
      if task.mediaPathSet && e.mediaExists then e.net
      else .ret false ("media file not found")
    else .ret false ("Unknown message_type: " ++ task.messageType)

/-- Outcome of one `await send_or_forward_one(...)` call site inside
`_run_one_task`: a returned pair, a raised `FloodWaitError`, or some
other raised exception carrying its message. -/
inductive CallOutcome where
  | ret (success : Bool) (msg : String)
  | floodWait (seconds : Nat)
  | exc (msg : String)
  deriving DecidableEq, Repr

/-- View a `send_or_forward_one` result as a call-site outcome. -/
def callOf : SendResult → CallOutcome
  | .ret b s => .ret b s
  | .floodWait n => .floodWait n

/-- The `(success, msg)` pair that `_run_one_task` ends up recording
for given outcomes of the two dispatch call sites, when it records one
at all: a first returned pair is final; a raised non-FloodWait
exception is converted by the `except Exception` arm; after a
`FloodWaitError` the retry's returned pair is final; a raised exception
during the retry (`floodWait` or `exc`) escapes, and nothing is
recorded. -/
def finalOutcome : CallOutcome → CallOutcome → Option (Bool × String)
  | .ret b s, _ => some (b, s)
  | .exc s, _ => some (false, s)
  | .floodWait _, .ret b s => some (b, s)
  | .floodWait _, .floodWait _ => none
  | .floodWait _, .exc _ => none

/-- Oracle for one `_run_one_task` invocation: the current time, whether
`create_client_for_session` produced a connected client, the
`random.choice` index, and the outcomes of the first dispatch call and
of the retry call (the latter consulted only after a `FloodWaitError`). -/
structure RunEnv where
  now : Nat
  clientOk : Bool
  pick : Nat
  call1 : CallOutcome
  call2 : CallOutcome
  deriving Repr

/-- `"Сессия не найдена или отключена"` (`task_runner.py`, line 59). -/
def ERR_NO_SESSION : String := "Сессия не найдена или отключена"

/-- `"Не удалось подключиться к аккаунту"` (`task_runner.py`, line 68). -/
def ERR_NO_CLIENT : String := "Не удалось подключиться к аккаунту"

/-- `"Отправка не удалась"` (`task_runner.py`, line 124). -/
def FAIL_LOG_MSG : String := "Отправка не удалась"

/-- The daily pre-send gate condition (`task_runner.py`, line 77):
Python `task.daily_limit and task.sent_today >= task.daily_limit`. -/
def dailyGateHit (t : Task) : Prop :=
  t.dailyLimit ≠ 0 ∧ t.dailyLimit ≤ (t.sentToday : Int)

instance (t : Task) : Decidable (dailyGateHit t) :=
  inferInstanceAs (Decidable (_ ∧ _))

/-- The total pre-send gate condition (`task_runner.py`, lines 79 and
118): Python `task.total_limit and task.sent_total >= task.total_limit`. -/
def totalGateHit (t : Task) : Prop :=
  t.totalLimit ≠ 0 ∧ t.totalLimit ≤ (t.sentTotal : Int)

instance (t : Task) : Decidable (totalGateHit t) :=
  inferInstanceAs (Decidable (_ ∧ _))

/-- The counter bump of a successful dispatch (`task_runner.py`,
lines 115-117): increment both counters and stamp `last_sent_at`. -/
def bumped (now : Nat) (t : Task) : Task :=
  { t with
    sentToday := t.sentToday + 1,
    sentTotal := t.sentTotal + 1,
    lastSentAt := some now }

/-- Post-send update on a successful dispatch (`task_runner.py`,
lines 114-121): bump both counters, stamp `last_sent_at`, and complete
the task when the total limit is reached.  (The trailing
`daily_limit` check of lines 120-121 is a `pass` and has no effect.) -/
def postSendSuccess (now : Nat) (t : Task) : Task :=
  if totalGateHit (bumped now t) then { bumped now t with status := .completed }
  else bumped now t

/-- Result of `_run_one_task`: the store after all commits, the list of
dispatch invocations `(taskId, chatId)` performed, and the message of
an exception that escaped the function, if any. -/
structure RunOut where
  st : Store
  calls : List (Nat × Int)
  raised : Option String
  deriving Repr

/-- Outcome recording (`task_runner.py`, lines 108-125): re-read the
task (skipping everything when it vanished), append one `SendLog`, then
either apply the success update or set `error_message` and append a
failure `ErrorLog`. -/
def recordOutcome (st : Store) (taskId : Nat) (chatId : Int) (now : Nat)
    (success : Bool) (msg : String) : Store :=
  match getTask st taskId with
  | none => st
  | some _ =>
    let st1 := addSendLog st ⟨taskId, chatId, success, msg⟩
    if success then
      updTask st1 taskId (postSendSuccess now)
    else
      addErrorLog (updTask st1 taskId (fun t => { t with errorMessage := some msg }))
        ⟨some taskId, "error", FAIL_LOG_MSG, some msg⟩

/-- The dispatch part of `_run_one_task` (`task_runner.py`,
lines 88-125): the first `send_or_forward_one` call, the
`FloodWaitError` handler that logs one `ErrorLog`, sleeps and retries
exactly once, the `except Exception` arm that turns any other raised
exception into a failed outcome, and the final outcome recording.
An exception raised by the retry call — a second `FloodWaitError`
included — is raised from inside the `except FloodWaitError` handler,
so no arm of the same `try` statement catches it: it escapes
`_run_one_task` with no `SendLog` appended. -/
def dispatchPhase (env : RunEnv) (st1 : Store) (taskId : Nat) (chatId : Int) : RunOut :=
  match env.call1 with
  | .ret b s =>
    ⟨recordOutcome st1 taskId chatId env.now b s, [(taskId, chatId)], none⟩
  | .exc s =>
    ⟨recordOutcome st1 taskId chatId env.now false s, [(taskId, chatId)], none⟩
  | .floodWait c =>
    let st2 := addErrorLog st1 ⟨some taskId, "error", "FloodWait", some (toString c)⟩
    match env.call2 with
    | .ret b s =>
      ⟨recordOutcome st2 taskId chatId env.now b s,
       [(taskId, chatId), (taskId, chatId)], none⟩
    | .floodWait c2 =>
      ⟨st2, [(taskId, chatId), (taskId, chatId)],
       some ("FloodWaitError " ++ toString c2)⟩
    | .exc s =>
      ⟨st2, [(taskId, chatId), (taskId, chatId)], some s⟩

/-- `_run_one_task` (`task_runner.py`, lines 50-127). -/
def run_one_task (env : RunEnv) (st : Store) (taskId : Nat) : RunOut :=
  match getTask st taskId with
  | none => ⟨st, [], none⟩
  | some task0 =>
  if task0.status ≠ .active then ⟨st, [], none⟩ else
  match getSess st task0.sessionId with
  | none =>
    ⟨updTask st taskId
      (fun t => { t with status := .error, errorMessage := some ERR_NO_SESSION }),
     [], none⟩
  | some ts =>
  if ts.isActive = false then
    ⟨updTask st taskId
      (fun t => { t with status := .error, errorMessage := some ERR_NO_SESSION }),
     [], none⟩ else
  if env.clientOk = false then
    ⟨updTask st taskId
      (fun t => { t with status := .error, errorMessage := some ERR_NO_CLIENT }),
     [], none⟩ else
  match getTask st taskId with
  | none => ⟨st, [], none⟩
  | some task1 =>
  if task1.status ≠ .active then ⟨st, [], none⟩ else
  let st1 := updTask st taskId (reset_daily_if_needed env.now)
  let task := reset_daily_if_needed env.now task1
  if dailyGateHit task then ⟨st1, [], none⟩ else
  if totalGateHit task then
    ⟨updTask st1 taskId (fun t => { t with status := .completed }), [], none⟩ else
  if task.targets.isEmpty then ⟨st1, [], none⟩ else
  dispatchPhase env st1 taskId (task.targets.getD (env.pick % task.targets.length) 0)

/-- Selection key of the worker query: `(last_sent_at, id)`. -/
def taskKey (t : Task) : Option Nat × Nat := (t.lastSentAt, t.id)

/-- Strict lexicographic order on selection keys, with a null
`last_sent_at` before every non-null one (SQLite `ASC` places NULL
first). -/
def keyLt (a b : Option Nat × Nat) : Bool :=
  match a.1, b.1 with
  | none, none => a.2 < b.2
  | none, some _ => true
  | some _, none => false
  | some x, some y => x < y || (x == y && a.2 < b.2)

/-- One step of the minimum computation underlying `ORDER BY ...
LIMIT 1`: keep the candidate with the smaller key. -/
def pickBetter (acc : Option Task) (t : Task) : Option Task :=
  match acc with
  | none => some t
  | some b => if keyLt (taskKey t) (taskKey b) then some t else some b

/-- The worker's selection query (`task_runner.py`, lines 174-179):
the active task minimal for `ORDER BY last_sent_at ASC, id ASC`. -/
def selectTask (tasks : List Task) : Option Task :=
  (tasks.filter (fun t => t.status == Status.active)).foldl pickBetter none

/-- The inter-send delay computation (`task_runner.py`, lines 195-197):
clamp the lower bound to at least 20, raise the upper bound to the
lower one, then draw `random.uniform`, modelled by the draw parameter
`r ∈ [0, 1]`. -/
def computeDelay (t : Task) (r : ℚ) : ℚ :=
  let lo : Int := max 20 t.intervalMinSec
  let hi : Int := max lo t.intervalMaxSec
  (lo : ℚ) + r * ((hi : ℚ) - (lo : ℚ))

/-- How one worker cycle ends: the idle 5-second poll on the wake
signal, a timed interruptible wait of the drawn delay, or an immediate
next cycle (`continue` after the task row vanished). -/
inductive SleepKind where
  | idleWait
  | interval (d : ℚ)
  | noSleep
  deriving DecidableEq, Repr

/-- Result of one iteration of the `_worker` loop body. -/
structure CycleOut where
  st : Store
  calls : List (Nat × Int)
  raised : Option String
  sleep : SleepKind
  deriving Repr

/-- Oracle for one worker cycle: the `run_one_task` oracle plus the
`random.uniform` draw parameter. -/
structure CycleEnv where
  run : RunEnv
  r : ℚ
  deriving Repr

/-- One iteration of `_worker` (`task_runner.py`, lines 171-203):
select the stalest active task, run it, re-read its row and draw the
inter-send delay.  An exception escaping `_run_one_task` is not caught
anywhere in `_worker`, so it surfaces in `raised`. -/
def workerCycle (env : CycleEnv) (st : Store) : CycleOut :=
  match selectTask st.tasks with
  | none => ⟨st, [], none, .idleWait⟩
  | some task =>
    let out := run_one_task env.run st task.id
    match out.raised with
    | some m => ⟨out.st, out.calls, some m, .noSleep⟩
    | none =>
      match getTask out.st task.id with
      | none => ⟨out.st, out.calls, none, .noSleep⟩
      | some t => ⟨out.st, out.calls, none, .interval (computeDelay t env.r)⟩

/-- Iterated worker cycles.  The Boolean records whether some cycle let
an exception escape: `asyncio.create_task(_worker(...))` has no
supervision, so an escaped exception terminates the worker loop and no
further cycle runs. -/
def runCycles : List CycleEnv → Store → Store × Bool
  | [], st => (st, false)
  | e :: es, st =>
    let c := workerCycle e st
    match c.raised with
    | some _ => (c.st, true)
    | none => runCycles es c.st

/-- How one `_run_one_task` invocation can change one task row: the
exhaustive list of per-row transitions of the scheduler, each with the
gate facts that held when it was taken. -/
inductive TaskStep (now : Nat) (t : Task) : Task → Prop where
  | unchanged : TaskStep now t t
  | toError (m : String) :
      TaskStep now t { t with status := .error, errorMessage := some m }
  | resetOnly : TaskStep now t (reset_daily_if_needed now t)
  | toCompleted (h : totalGateHit (reset_daily_if_needed now t)) :
      TaskStep now t { reset_daily_if_needed now t with status := .completed }
  | sendSuccess (hd : ¬ dailyGateHit (reset_daily_if_needed now t))
      (ht : ¬ totalGateHit (reset_daily_if_needed now t)) :
      TaskStep now t (postSendSuccess now (reset_daily_if_needed now t))
  | sendFailure (m : String) :
      TaskStep now t { reset_daily_if_needed now t with errorMessage := some m }

/-- The invariant of claim C1: each task with a positive daily limit
has `sent_today` within it. -/
def DailyInv (st : Store) : Prop :=
  ∀ t ∈ st.tasks, 0 < t.dailyLimit → (t.sentToday : Int) ≤ t.dailyLimit

instance (st : Store) : Decidable (DailyInv st) :=
  inferInstanceAs (Decidable (∀ t ∈ st.tasks, _ → _))

/-- Concrete fixture: an active text task used by the witnesses. -/
def wTask : Task :=
  { id := 1, sessionId := 10, targets := [100, 200],
    messageType := "text", messageText := some ("hello"),
    forwardSource := none, mediaPathSet := false,
    intervalMinSec := 30, intervalMaxSec := 60,
    dailyLimit := 2, totalLimit := 0,
    status := .active, errorMessage := none,
    sentToday := 0, sentTotal := 0, lastSentAt := none, lastResetAt := some 0 }

/-- Concrete fixture: a one-task store with an active session. -/
def wStore : Store := ⟨[wTask], [⟨10, true⟩], [], []⟩

/-- Concrete fixture: a two-task store for the selection witness. -/
def wStore2 : Store :=
  ⟨[{ wTask with id := 2, lastSentAt := some 500 }, wTask], [⟨10, true⟩], [], []⟩

/-- Concrete fixture: a store whose task has met its total limit. -/
def wStoreC2 : Store :=
  ⟨[{ wTask with dailyLimit := 0, totalLimit := 1, sentTotal := 1 }],
   [⟨10, true⟩], [], []⟩

/-- Concrete fixture: the task with its daily limit used up. -/
def wTaskUsed : Task := { wTask with sentToday := 2 }

/-- Concrete fixture: a store whose task has exhausted its daily
limit. -/
def wStoreSkip : Store := ⟨[wTaskUsed], [⟨10, true⟩], [], []⟩

/-- Concrete fixture: a task whose stored intervals violate the
`20 ≤ min ≤ max ≤ 900` invariant. -/
def wTaskBad : Task :=
  { wTask with intervalMinSec := 5, intervalMaxSec := 1000 }

/-- Concrete fixture: a forward-type task. -/
def wTaskF : Task :=
  { wTask with messageType := "forward", forwardSource := some (777, 5) }

/-- Concrete fixture: a store holding the forward task. -/
def wStoreF : Store := ⟨[wTaskF], [⟨10, true⟩], [], []⟩

/-- Concrete fixture: a dispatch environment whose album text hits the
blocklist only up to case, in Cyrillic. -/
def wDEnvB : DispatchEnv := ⟨none, "Привет от БОТ ШЕРЛОК", true, .ret true ("OK")⟩

/-- Concrete fixture: an oracle whose first call outcome is what
`send_or_forward_one` decides for the blocked forward. -/
def wEnvF : RunEnv :=
  ⟨1000, true, 0, callOf (send_or_forward_one wTaskF wDEnvB), .ret true ("OK")⟩

/-- Concrete fixture: an oracle where both dispatch calls return
success. -/
def wEnv : RunEnv := ⟨1000, true, 0, .ret true ("OK"), .ret true ("OK")⟩

/-! ### Basic lemmas about the store operations -/

theorem tasks_addSendLog (st : Store) (l : SendAttempt) :
    (addSendLog st l).tasks = st.tasks := rfl

theorem tasks_addErrorLog (st : Store) (l : ErrorEvent) :
    (addErrorLog st l).tasks = st.tasks := rfl

theorem mem_updList {i : Nat} {f : Task → Task} {l : List Task} {t' : Task}
    (h : t' ∈ updList i f l) :
    ∃ t ∈ l, t' = if t.id = i then f t else t := by
  rcases List.mem_map.1 h with ⟨t, ht, rfl⟩
  exact ⟨t, ht, rfl⟩

theorem map_id_updList {i : Nat} {f : Task → Task} (l : List Task)
    (hf : ∀ t, (f t).id = t.id) :
    (updList i f l).map Task.id = l.map Task.id := by
  unfold updList
  rw [List.map_map]
  refine List.map_congr_left ?_
  intro t _
  by_cases h : t.id = i <;> simp [h, hf]

theorem updList_updList {i : Nat} {f g : Task → Task} (l : List Task)
    (hf : ∀ t, (f t).id = t.id) :
    updList i g (updList i f l) = updList i (fun t => g (f t)) l := by
  unfold updList
  rw [List.map_map]
  refine List.map_congr_left ?_
  intro t _
  by_cases h : t.id = i <;> simp [h, hf]

theorem findTask_some {l : List Task} {i : Nat} {a : Task}
    (h : findTask l i = some a) : a ∈ l ∧ a.id = i := by
  refine ⟨List.mem_of_find?_eq_some h, ?_⟩
  have := List.find?_some h
  simpa using this

theorem nodup_task_eq {l : List Task} (hids : (l.map Task.id).Nodup)
    {a b : Task} (ha : a ∈ l) (hb : b ∈ l) (h : a.id = b.id) : a = b :=
  List.inj_on_of_nodup_map hids ha hb h

theorem findTask_of_mem {l : List Task} (hids : (l.map Task.id).Nodup)
    {t : Task} (ht : t ∈ l) : findTask l t.id = some t := by
  cases hf : findTask l t.id with
  | none =>
    have h2 := List.find?_eq_none.1 hf t ht
    exact absurd (by simp) h2
  | some a =>
    obtain ⟨ha, hai⟩ := findTask_some hf
    rw [nodup_task_eq hids ht ha hai.symm]

theorem findTask_updList {i j : Nat} {f : Task → Task} (l : List Task)
    (hf : ∀ t, (f t).id = t.id) :
    findTask (updList i f l) j =
      (findTask l j).map (fun t => if t.id = i then f t else t) := by
  induction l with
  | nil => rfl
  | cons a l ih =>
    have hgid : ((if a.id = i then f a else a).id == j) = (a.id == j) := by
      by_cases h : a.id = i <;> simp [h, hf]
    unfold findTask updList at ih ⊢
    simp only [List.map_cons, List.find?_cons, hgid]
    cases hpa : (a.id == j) with
    | true => simp only [hpa]; rfl
    | false => simp only [hpa]; exact ih

theorem getTask_updTask_self {st : Store} {i : Nat} {f : Task → Task} {a : Task}
    (hf : ∀ t, (f t).id = t.id) (h : getTask st i = some a) :
    getTask (updTask st i f) i = some (f a) := by
  unfold getTask updTask at *
  rw [findTask_updList st.tasks hf, h]
  have := (findTask_some h).2
  simp [this]

theorem updList_id (i : Nat) (l : List Task) : updList i (fun t => t) l = l := by
  unfold updList
  simp

theorem getTask_addSendLog (st : Store) (l : SendAttempt) (j : Nat) :
    getTask (addSendLog st l) j = getTask st j := rfl

theorem getTask_addErrorLog (st : Store) (l : ErrorEvent) (j : Nat) :
    getTask (addErrorLog st l) j = getTask st j := rfl

theorem reset_id (now : Nat) (t : Task) :
    (reset_daily_if_needed now t).id = t.id := by
  unfold reset_daily_if_needed
  split <;> rfl

theorem postSendSuccess_id (now : Nat) (t : Task) :
    (postSendSuccess now t).id = t.id := by
  simp only [postSendSuccess]
  split <;> rfl

theorem recordOutcome_tasks {st : Store} {i : Nat} {u : Task}
    (h : getTask st i = some u) (chat : Int) (now : Nat) (b : Bool) (s : String) :
    (recordOutcome st i chat now b s).tasks =
      if b then updList i (postSendSuccess now) st.tasks
      else updList i (fun t => { t with errorMessage := some s }) st.tasks := by
  unfold recordOutcome
  rw [h]
  cases b <;> rfl

theorem dispatchPhase_tasks_shape (env : RunEnv) (st1 : Store) (i : Nat)
    (chat : Int) {u : Task} (hu : getTask st1 i = some u) :
    (dispatchPhase env st1 i chat).st.tasks =
      match finalOutcome env.call1 env.call2 with
      | some (true, _) => updList i (postSendSuccess env.now) st1.tasks
      | some (false, s) => updList i (fun t => { t with errorMessage := some s }) st1.tasks
      | none => st1.tasks := by
  cases hc1 : env.call1 with
  | ret b s =>
    cases b <;>
      simp [dispatchPhase, finalOutcome, hc1, recordOutcome_tasks hu]
  | exc s =>
    simp [dispatchPhase, finalOutcome, hc1, recordOutcome_tasks hu]
  | floodWait c =>
    cases hc2 : env.call2 with
    | ret b s =>
      have hu3 : getTask (addErrorLog st1 ⟨some i, "error", "FloodWait",
          some (toString c)⟩) i = some u := hu
      cases b <;>
        simp [dispatchPhase, finalOutcome, hc1, hc2, recordOutcome_tasks hu3,
          tasks_addErrorLog]
    | floodWait c2 =>
      simp [dispatchPhase, finalOutcome, hc1, hc2, tasks_addErrorLog]
    | exc s =>
      simp [dispatchPhase, finalOutcome, hc1, hc2, tasks_addErrorLog]

/-- The store shape of one `_run_one_task` invocation: the tasks list
is a by-id rewrite of the input tasks list, every row keeps its id, and
the rewrite of the addressed row is one of the `TaskStep` transitions. -/
theorem run_one_task_shape (env : RunEnv) (st : Store) (i : Nat)
    (hids : (st.tasks.map Task.id).Nodup) :
    ∃ f : Task → Task,
      (∀ t, (f t).id = t.id) ∧
      (run_one_task env st i).st.tasks = updList i f st.tasks ∧
      ∀ t ∈ st.tasks, t.id = i → TaskStep env.now t (f t) := by
  cases h0 : getTask st i with
  | none =>
    refine ⟨fun t => t, fun t => rfl, ?_, ?_⟩
    · simp [run_one_task, h0, updList_id]
    · intro t _ _
      exact TaskStep.unchanged
  | some task0 =>
    obtain ⟨hmem0, hid0⟩ := findTask_some h0
    have huniq : ∀ t ∈ st.tasks, t.id = i → t = task0 := by
      intro t ht hti
      exact nodup_task_eq hids ht hmem0 (hti.trans hid0.symm)
    by_cases h1 : task0.status ≠ Status.active
    · refine ⟨fun t => t, fun t => rfl, ?_, ?_⟩
      · simp [run_one_task, h0, h1, updList_id]
      · intro t _ _
        exact TaskStep.unchanged
    · cases h2 : getSess st task0.sessionId with
      | none =>
        refine ⟨fun t => { t with status := .error, errorMessage := some ERR_NO_SESSION },
          fun t => rfl, ?_, ?_⟩
        · simp [run_one_task, h0, h1, h2, updTask]
        · intro t _ _
          exact TaskStep.toError _
      | some ts =>
        by_cases h3 : ts.isActive = false
        · refine ⟨fun t => { t with status := .error, errorMessage := some ERR_NO_SESSION },
            fun t => rfl, ?_, ?_⟩
          · simp [run_one_task, h0, h1, h2, h3, updTask]
          · intro t _ _
            exact TaskStep.toError _
        · by_cases h4 : env.clientOk = false
          · refine ⟨fun t => { t with status := .error, errorMessage := some ERR_NO_CLIENT },
              fun t => rfl, ?_, ?_⟩
            · simp [run_one_task, h0, h1, h2, h3, h4, updTask]
            · intro t _ _
              exact TaskStep.toError _
          · by_cases hd : dailyGateHit (reset_daily_if_needed env.now task0)
            · refine ⟨reset_daily_if_needed env.now, reset_id env.now, ?_, ?_⟩
              · simp [run_one_task, h0, h1, h2, h3, h4, hd, updTask]
              · intro t ht hti
                rw [huniq t ht hti]
                exact TaskStep.resetOnly
            · by_cases htg : totalGateHit (reset_daily_if_needed env.now task0)
              · refine ⟨fun t =>
                  { reset_daily_if_needed env.now t with status := .completed },
                  fun t => reset_id env.now t, ?_, ?_⟩
                · have := updList_updList (i := i)
                    (f := reset_daily_if_needed env.now)
                    (g := fun t => ({ t with status := .completed } : Task))
                    st.tasks (reset_id env.now)
                  simp [run_one_task, h0, h1, h2, h3, h4, hd, htg, updTask, this]
                · intro t ht hti
                  rw [huniq t ht hti]
                  exact TaskStep.toCompleted htg
              · by_cases he : (reset_daily_if_needed env.now task0).targets.isEmpty
                · refine ⟨reset_daily_if_needed env.now, reset_id env.now, ?_, ?_⟩
                  · simp [run_one_task, h0, h1, h2, h3, h4, hd, htg, he, updTask]
                  · intro t ht hti
                    rw [huniq t ht hti]
                    exact TaskStep.resetOnly
                · have hbody : (run_one_task env st i).st.tasks =
                      (dispatchPhase env (updTask st i (reset_daily_if_needed env.now)) i
                        ((reset_daily_if_needed env.now task0).targets.getD
                          (env.pick % (reset_daily_if_needed env.now task0).targets.length) 0)).st.tasks := by
                    simp [run_one_task, h0, h1, h2, h3, h4, hd, htg, he]
                  have hu : getTask (updTask st i (reset_daily_if_needed env.now)) i =
                      some (reset_daily_if_needed env.now task0) :=
                    getTask_updTask_self (reset_id env.now) h0
                  rw [dispatchPhase_tasks_shape env _ i _ hu] at hbody
                  rcases hfo : finalOutcome env.call1 env.call2 with _ | ⟨b, s⟩
                  · refine ⟨reset_daily_if_needed env.now, reset_id env.now, ?_, ?_⟩
                    · rw [hbody, hfo]
                      rfl
                    · intro t ht hti
                      rw [huniq t ht hti]
                      exact TaskStep.resetOnly
                  · cases b with
                    | true =>
                      refine ⟨fun t => postSendSuccess env.now (reset_daily_if_needed env.now t),
                        fun t => (postSendSuccess_id env.now _).trans (reset_id env.now t), ?_, ?_⟩
                      · rw [hbody, hfo]
                        exact updList_updList st.tasks (reset_id env.now)
                      · intro t ht hti
                        rw [huniq t ht hti]
                        exact TaskStep.sendSuccess hd htg
                    | false =>
                      refine ⟨fun t =>
                        { reset_daily_if_needed env.now t with errorMessage := some s },
                        fun t => reset_id env.now t, ?_, ?_⟩
                      · rw [hbody, hfo]
                        exact updList_updList st.tasks (reset_id env.now)
                      · intro t ht hti
                        rw [huniq t ht hti]
                        exact TaskStep.sendFailure s

theorem run_one_task_map_id (env : RunEnv) (st : Store) (i : Nat)
    (hids : (st.tasks.map Task.id).Nodup) :
    ((run_one_task env st i).st.tasks).map Task.id = st.tasks.map Task.id := by
  obtain ⟨f, hfid, heq, _⟩ := run_one_task_shape env st i hids
  rw [heq]
  exact map_id_updList st.tasks hfid

theorem run_one_task_exists_step (env : RunEnv) (st : Store) (i : Nat)
    (hids : (st.tasks.map Task.id).Nodup) :
    ∀ t' ∈ (run_one_task env st i).st.tasks,
      ∃ t ∈ st.tasks, TaskStep env.now t t' := by
  obtain ⟨f, _, heq, hstep⟩ := run_one_task_shape env st i hids
  intro t' ht'
  rw [heq] at ht'
  obtain ⟨t, ht, rfl⟩ := mem_updList ht'
  by_cases hti : t.id = i
  · rw [if_pos hti]
    exact ⟨t, ht, hstep t ht hti⟩
  · rw [if_neg hti]
    exact ⟨t, ht, TaskStep.unchanged⟩

theorem taskStep_daily {now : Nat} {t t' : Task} (h : TaskStep now t t')
    (hP : 0 < t.dailyLimit → (t.sentToday : Int) ≤ t.dailyLimit) :
    0 < t'.dailyLimit → (t'.sentToday : Int) ≤ t'.dailyLimit := by
  have hreset : 0 < (reset_daily_if_needed now t).dailyLimit →
      ((reset_daily_if_needed now t).sentToday : Int) ≤
        (reset_daily_if_needed now t).dailyLimit := by
    unfold reset_daily_if_needed
    split
    · intro hdl
      simpa using hdl.le
    · exact hP
  cases h with
  | unchanged => exact hP
  | toError m => exact hP
  | resetOnly => exact hreset
  | toCompleted h => exact hreset
  | sendFailure m => exact hreset
  | sendSuccess hd ht =>
    unfold dailyGateHit at hd
    push_neg at hd
    simp only [postSendSuccess, bumped]
    split <;>
    · dsimp only
      intro hdl
      have hlt := hd hdl.ne'
      push_cast
      omega

theorem workerCycle_st (env : CycleEnv) (st : Store) :
    (workerCycle env st).st =
      match selectTask st.tasks with
      | none => st
      | some task => (run_one_task env.run st task.id).st := by
  unfold workerCycle
  cases hsel : selectTask st.tasks with
  | none => rfl
  | some task =>
    cases hr : (run_one_task env.run st task.id).raised with
    | some m => simp only [hr]
    | none =>
      simp only [hr]
      cases hg : getTask (run_one_task env.run st task.id).st task.id <;> simp only [hg]

theorem workerCycle_calls (env : CycleEnv) (st : Store) :
    (workerCycle env st).calls =
      match selectTask st.tasks with
      | none => []
      | some task => (run_one_task env.run st task.id).calls := by
  unfold workerCycle
  cases hsel : selectTask st.tasks with
  | none => rfl
  | some task =>
    cases hr : (run_one_task env.run st task.id).raised with
    | some m => simp only [hr]
    | none =>
      simp only [hr]
      cases hg : getTask (run_one_task env.run st task.id).st task.id <;> simp only [hg]

theorem workerCycle_map_id (env : CycleEnv) (st : Store)
    (hids : (st.tasks.map Task.id).Nodup) :
    ((workerCycle env st).st.tasks).map Task.id = st.tasks.map Task.id := by
  rw [workerCycle_st]
  cases selectTask st.tasks with
  | none => rfl
  | some task => exact run_one_task_map_id env.run st task.id hids

theorem workerCycle_exists_step (env : CycleEnv) (st : Store)
    (hids : (st.tasks.map Task.id).Nodup) :
    ∀ t' ∈ (workerCycle env st).st.tasks,
      ∃ t ∈ st.tasks, TaskStep env.run.now t t' := by
  rw [workerCycle_st]
  cases selectTask st.tasks with
  | none =>
    intro t' ht'
    exact ⟨t', ht', TaskStep.unchanged⟩
  | some task => exact run_one_task_exists_step env.run st task.id hids

/-- C1: for every task with `dailyLimit > 0`, the invariant
`sentToday ≤ dailyLimit` is preserved by any number of scheduler
cycles: the pre-send gate refuses to dispatch once the limit is
reached, the daily reset only lowers `sentToday` to 0, and a
successful dispatch (possible only when the gate passed) raises
`sentToday` by exactly one, so the bound, once true, stays true. -/
theorem C1_daily_limit_invariant (envs : List CycleEnv) (st : Store)
    (hids : (st.tasks.map Task.id).Nodup) (hinv : DailyInv st) :
    DailyInv (runCycles envs st).1 := by
  induction envs generalizing st with
  | nil => exact hinv
  | cons e es ih =>
    have hinv' : DailyInv (workerCycle e st).st := by
      intro t' ht'
      obtain ⟨t, ht, hstep⟩ := workerCycle_exists_step e st hids t' ht'
      exact taskStep_daily hstep (hinv t ht)
    have hids' : (((workerCycle e st).st.tasks).map Task.id).Nodup := by
      rw [workerCycle_map_id e st hids]
      exact hids
    unfold runCycles
    cases hr : (workerCycle e st).raised with
    | some m =>
      simp only [hr]
      exact hinv'
    | none =>
      simp only [hr]
      exact ih _ hids' hinv'

/-! ### Selection-order lemmas -/

theorem keyLt_irrefl (k : Option Nat × Nat) : keyLt k k = false := by
  rcases k with ⟨o, n⟩
  cases o <;> simp [keyLt]

theorem keyLt_trans {a b c : Option Nat × Nat}
    (h1 : keyLt a b = true) (h2 : keyLt b c = true) : keyLt a c = true := by
  rcases a with ⟨o1, n1⟩
  rcases b with ⟨o2, n2⟩
  rcases c with ⟨o3, n3⟩
  cases o1 <;> cases o2 <;> cases o3 <;> simp_all [keyLt] <;> omega

theorem keyLt_cases (k1 k2 : Option Nat × Nat) :
    keyLt k1 k2 = true ∨ keyLt k2 k1 = true ∨ k1 = k2 := by
  rcases k1 with ⟨o1, n1⟩
  rcases k2 with ⟨o2, n2⟩
  cases o1 <;> cases o2 <;> simp [keyLt] <;> omega

theorem pickBetter_ne_none (acc : Option Task) (t : Task) :
    pickBetter acc t ≠ none := by
  cases acc with
  | none => simp [pickBetter]
  | some b =>
    simp only [pickBetter]
    split <;> simp

theorem foldl_pickBetter_ne_none (l : List Task) (t : Task) :
    l.foldl pickBetter (some t) ≠ none := by
  induction l generalizing t with
  | nil => simp
  | cons a l ih =>
    rw [List.foldl_cons]
    cases hp : pickBetter (some t) a with
    | none => exact absurd hp (pickBetter_ne_none _ a)
    | some u => exact ih u

theorem foldl_pickBetter_mem (l : List Task) :
    ∀ (acc : Option Task) (r : Task),
      l.foldl pickBetter acc = some r → acc = some r ∨ r ∈ l := by
  induction l with
  | nil =>
    intro acc r h
    exact Or.inl h
  | cons a l ih =>
    intro acc r h
    rw [List.foldl_cons] at h
    rcases ih (pickBetter acc a) r h with h' | h'
    · cases acc with
      | none =>
        have ha : a = r := Option.some.inj h'
        subst ha
        exact Or.inr (List.mem_cons_self a l)
      | some b =>
        simp only [pickBetter] at h'
        split at h'
        · have ha : a = r := Option.some.inj h'
          subst ha
          exact Or.inr (List.mem_cons_self a l)
        · exact Or.inl h'
    · exact Or.inr (List.mem_cons_of_mem a h')

theorem foldl_pickBetter_min (l : List Task) :
    ∀ (acc : Option Task) (r : Task),
      l.foldl pickBetter acc = some r →
      (∀ b, acc = some b → keyLt (taskKey b) (taskKey r) = false) ∧
      (∀ u ∈ l, keyLt (taskKey u) (taskKey r) = false) := by
  induction l with
  | nil =>
    intro acc r h
    refine ⟨?_, by simp⟩
    intro b hb
    rw [hb] at h
    rw [Option.some.inj h]
    exact keyLt_irrefl _
  | cons a l ih =>
    intro acc r h
    rw [List.foldl_cons] at h
    obtain ⟨hacc, hl⟩ := ih (pickBetter acc a) r h
    have hnota : keyLt (taskKey a) (taskKey r) = false := by
      cases acc with
      | none => exact hacc a rfl
      | some b =>
        simp only [pickBetter] at hacc
        by_cases hab : keyLt (taskKey a) (taskKey b) = true
        · exact hacc a (by rw [if_pos hab])
        · have hbr := hacc b (by rw [if_neg hab])
          cases har : keyLt (taskKey a) (taskKey r) with
          | false => rfl
          | true =>
            rcases keyLt_cases (taskKey a) (taskKey b) with h1 | h1 | h1
            · exact absurd h1 hab
            · have := keyLt_trans h1 har
              rw [this] at hbr
              exact hbr
            · rw [h1] at har
              rw [har] at hbr
              exact hbr
    refine ⟨?_, ?_⟩
    · intro b hb
      rw [hb] at hacc
      simp only [pickBetter] at hacc
      by_cases hab : keyLt (taskKey a) (taskKey b) = true
      · have har := hacc a (by rw [if_pos hab])
        cases hbr : keyLt (taskKey b) (taskKey r) with
        | false => rfl
        | true =>
          rcases keyLt_cases (taskKey a) (taskKey r) with h1 | h1 | h1
          · rw [h1] at har
            exact har
          · have h2 := keyLt_trans (keyLt_trans hab hbr) h1
            rw [keyLt_irrefl] at h2
            exact h2.symm
          · rw [h1] at hab
            have h2 := keyLt_trans hab hbr
            rw [keyLt_irrefl] at h2
            exact h2.symm
      · exact hacc b (by rw [if_neg hab])
    · intro u hu
      rcases List.mem_cons.1 hu with rfl | hu'
      · exact hnota
      · exact hl u hu'

theorem selectTask_some_spec {tasks : List Task} {t : Task}
    (h : selectTask tasks = some t) :
    t ∈ tasks ∧ t.status = Status.active ∧
    ∀ u ∈ tasks, u.status = Status.active →
      keyLt (taskKey u) (taskKey t) = false := by
  unfold selectTask at h
  have hmem := foldl_pickBetter_mem _ none t h
  have hmin := (foldl_pickBetter_min _ none t h).2
  rcases hmem with h' | h'
  · exact absurd h' (by simp)
  · obtain ⟨htm, hts⟩ := List.mem_filter.1 h'
    refine ⟨htm, by simpa using hts, ?_⟩
    intro u hu hua
    exact hmin u (List.mem_filter.2 ⟨hu, by simp [hua]⟩)

theorem selectTask_ne_none {tasks : List Task} {u : Task}
    (hu : u ∈ tasks) (hua : u.status = Status.active) :
    selectTask tasks ≠ none := by
  unfold selectTask
  have hu' : u ∈ tasks.filter (fun t => t.status == Status.active) :=
    List.mem_filter.2 ⟨hu, by simp [hua]⟩
  cases hf : tasks.filter (fun t => t.status == Status.active) with
  | nil => simp [hf] at hu'
  | cons a l =>
    rw [List.foldl_cons]
    exact foldl_pickBetter_ne_none l a

/-- Witness for C1: three successful-send cycles on a concrete store
with `dailyLimit = 2` keep the daily invariant. -/
theorem C1_daily_limit_invariant_witness :
    DailyInv (runCycles [⟨wEnv, 0⟩, ⟨wEnv, 0⟩, ⟨wEnv, 0⟩] wStore).1 :=
  C1_daily_limit_invariant [⟨wEnv, 0⟩, ⟨wEnv, 0⟩, ⟨wEnv, 0⟩] wStore
    (by decide) (by decide)

/-- C5: task selection is deterministic given store state: whenever the
worker query returns a task, that task is active and strictly smallest
for the `(lastSentAt, id)` lexicographic key (null `lastSentAt`
ordering first) among all active tasks, and the query returns a task
whenever an active task exists. -/
theorem C5_selection_deterministic (st : Store)
    (hids : (st.tasks.map Task.id).Nodup) :
    (∀ t, selectTask st.tasks = some t →
      t ∈ st.tasks ∧ t.status = Status.active ∧
      ∀ u ∈ st.tasks, u.status = Status.active → u ≠ t →
        keyLt (taskKey t) (taskKey u) = true) ∧
    ((∃ u ∈ st.tasks, u.status = Status.active) → selectTask st.tasks ≠ none) := by
  constructor
  · intro t ht
    obtain ⟨htm, hact, hmin⟩ := selectTask_some_spec ht
    refine ⟨htm, hact, ?_⟩
    intro u hu hua hne
    have hnot := hmin u hu hua
    rcases keyLt_cases (taskKey t) (taskKey u) with h | h | h
    · exact h
    · rw [h] at hnot
      exact Bool.noConfusion hnot
    · have hid : t.id = u.id := congrArg Prod.snd h
      exact absurd (nodup_task_eq hids htm hu hid).symm hne
  · rintro ⟨u, hu, hua⟩
    exact selectTask_ne_none hu hua

/-- Witness for C5 on a concrete two-task store. -/
theorem C5_selection_deterministic_witness :
    (∀ t, selectTask wStore2.tasks = some t →
      t ∈ wStore2.tasks ∧ t.status = Status.active ∧
      ∀ u ∈ wStore2.tasks, u.status = Status.active → u ≠ t →
        keyLt (taskKey t) (taskKey u) = true) ∧
    ((∃ u ∈ wStore2.tasks, u.status = Status.active) →
      selectTask wStore2.tasks ≠ none) :=
  C5_selection_deterministic wStore2 (by decide)

/-! ### Execution lemmas: one `_run_one_task` invocation under explicit
branch conditions -/

theorem run_daily_gate_eq (env : RunEnv) (st : Store) (i : Nat) {t : Task}
    (h0 : getTask st i = some t) (hact : t.status = Status.active)
    {s : Sess} (h2 : getSess st t.sessionId = some s) (h3 : s.isActive = true)
    (h4 : env.clientOk = true)
    (hd : dailyGateHit (reset_daily_if_needed env.now t)) :
    run_one_task env st i =
      ⟨updTask st i (reset_daily_if_needed env.now), [], none⟩ := by
  simp [run_one_task, h0, hact, h2, h3, h4, hd]

theorem run_total_gate_eq (env : RunEnv) (st : Store) (i : Nat) {t : Task}
    (h0 : getTask st i = some t) (hact : t.status = Status.active)
    {s : Sess} (h2 : getSess st t.sessionId = some s) (h3 : s.isActive = true)
    (h4 : env.clientOk = true)
    (hd : ¬ dailyGateHit (reset_daily_if_needed env.now t))
    (htg : totalGateHit (reset_daily_if_needed env.now t)) :
    run_one_task env st i =
      ⟨updTask (updTask st i (reset_daily_if_needed env.now)) i
        (fun u => { u with status := .completed }), [], none⟩ := by
  simp [run_one_task, h0, hact, h2, h3, h4, hd, htg]

theorem run_dispatch_eq (env : RunEnv) (st : Store) (i : Nat) {t : Task}
    (h0 : getTask st i = some t) (hact : t.status = Status.active)
    {s : Sess} (h2 : getSess st t.sessionId = some s) (h3 : s.isActive = true)
    (h4 : env.clientOk = true)
    (hd : ¬ dailyGateHit (reset_daily_if_needed env.now t))
    (htg : ¬ totalGateHit (reset_daily_if_needed env.now t))
    (he : (reset_daily_if_needed env.now t).targets.isEmpty = false) :
    run_one_task env st i =
      dispatchPhase env (updTask st i (reset_daily_if_needed env.now)) i
        ((reset_daily_if_needed env.now t).targets.getD
          (env.pick % (reset_daily_if_needed env.now t).targets.length) 0) := by
  simp [run_one_task, h0, hact, h2, h3, h4, hd, htg, he]

theorem updTask_reset_noop {now : Nat} (st : Store) (i : Nat) {t : Task}
    (hids : (st.tasks.map Task.id).Nodup)
    (h0 : getTask st i = some t) (hnr : need_reset_daily now t = false) :
    updTask st i (reset_daily_if_needed now) = st := by
  obtain ⟨hmem, hid⟩ := findTask_some h0
  have h1 : ∀ u ∈ st.tasks,
      (if u.id = i then reset_daily_if_needed now u else u) = u := by
    intro u hu
    by_cases hui : u.id = i
    · rw [if_pos hui]
      have : u = t := nodup_task_eq hids hu hmem (hui.trans hid.symm)
      rw [this]
      unfold reset_daily_if_needed
      rw [hnr]
      simp
    · rw [if_neg hui]
  show { st with tasks := updList i (reset_daily_if_needed now) st.tasks } = st
  unfold updList
  rw [List.map_congr_left h1]
  simp

/-! ### Field-projection lemmas -/

theorem reset_status (now : Nat) (t : Task) :
    (reset_daily_if_needed now t).status = t.status := by
  unfold reset_daily_if_needed
  split <;> rfl

theorem reset_targets (now : Nat) (t : Task) :
    (reset_daily_if_needed now t).targets = t.targets := by
  unfold reset_daily_if_needed
  split <;> rfl

theorem reset_sentTotal (now : Nat) (t : Task) :
    (reset_daily_if_needed now t).sentTotal = t.sentTotal := by
  unfold reset_daily_if_needed
  split <;> rfl

theorem reset_totalLimit (now : Nat) (t : Task) :
    (reset_daily_if_needed now t).totalLimit = t.totalLimit := by
  unfold reset_daily_if_needed
  split <;> rfl

theorem reset_dailyLimit (now : Nat) (t : Task) :
    (reset_daily_if_needed now t).dailyLimit = t.dailyLimit := by
  unfold reset_daily_if_needed
  split <;> rfl

theorem reset_lastSentAt (now : Nat) (t : Task) :
    (reset_daily_if_needed now t).lastSentAt = t.lastSentAt := by
  unfold reset_daily_if_needed
  split <;> rfl

theorem reset_errorMessage (now : Nat) (t : Task) :
    (reset_daily_if_needed now t).errorMessage = t.errorMessage := by
  unfold reset_daily_if_needed
  split <;> rfl

theorem reset_messageType (now : Nat) (t : Task) :
    (reset_daily_if_needed now t).messageType = t.messageType := by
  unfold reset_daily_if_needed
  split <;> rfl

theorem reset_lastResetAt_of_need {now : Nat} {t : Task}
    (h : need_reset_daily now t = true) :
    (reset_daily_if_needed now t).lastResetAt = some now := by
  unfold reset_daily_if_needed
  rw [h]
  simp

theorem reset_sentToday_of_need {now : Nat} {t : Task}
    (h : need_reset_daily now t = true) :
    (reset_daily_if_needed now t).sentToday = 0 := by
  unfold reset_daily_if_needed
  rw [h]
  simp

theorem reset_of_not_need {now : Nat} {t : Task}
    (h : need_reset_daily now t = false) :
    reset_daily_if_needed now t = t := by
  unfold reset_daily_if_needed
  rw [h]
  simp

theorem postSendSuccess_sentTotal (now : Nat) (u : Task) :
    (postSendSuccess now u).sentTotal = u.sentTotal + 1 := by
  simp only [postSendSuccess]
  split <;> rfl

theorem postSendSuccess_sentToday (now : Nat) (u : Task) :
    (postSendSuccess now u).sentToday = u.sentToday + 1 := by
  simp only [postSendSuccess]
  split <;> rfl

theorem postSendSuccess_totalLimit (now : Nat) (u : Task) :
    (postSendSuccess now u).totalLimit = u.totalLimit := by
  simp only [postSendSuccess]
  split <;> rfl

theorem postSendSuccess_lastSentAt (now : Nat) (u : Task) :
    (postSendSuccess now u).lastSentAt = some now := by
  simp only [postSendSuccess]
  split <;> rfl

theorem postSendSuccess_lastResetAt (now : Nat) (u : Task) :
    (postSendSuccess now u).lastResetAt = u.lastResetAt := by
  simp only [postSendSuccess]
  split <;> rfl

theorem postSendSuccess_status (now : Nat) (u : Task) :
    (postSendSuccess now u).status =
      if totalGateHit (bumped now u) then Status.completed else u.status := by
  simp only [postSendSuccess]
  by_cases h : totalGateHit (bumped now u)
  · rw [if_pos h, if_pos h]
  · rw [if_neg h, if_neg h]
    rfl

theorem taskStep_id {now : Nat} {t t' : Task} (h : TaskStep now t t') :
    t'.id = t.id := by
  cases h with
  | unchanged => rfl
  | toError m => rfl
  | resetOnly => exact reset_id now t
  | toCompleted h => exact reset_id now t
  | sendFailure m => exact reset_id now t
  | sendSuccess hd ht =>
    exact (postSendSuccess_id now _).trans (reset_id now t)

theorem taskStep_completed {now : Nat} {t t' : Task} (h : TaskStep now t t')
    (hc : t'.status = Status.completed) :
    t.status = Status.completed ∨ totalGateHit t' := by
  cases h with
  | unchanged => exact Or.inl hc
  | toError m => exact absurd hc (by simp)
  | resetOnly =>
    rw [reset_status] at hc
    exact Or.inl hc
  | toCompleted h => exact Or.inr h
  | sendFailure m =>
    have : ({ reset_daily_if_needed now t with
        errorMessage := some m } : Task).status =
        (reset_daily_if_needed now t).status := rfl
    rw [this, reset_status] at hc
    exact Or.inl hc
  | sendSuccess hd ht =>
    rw [postSendSuccess_status] at hc
    split at hc
    · next hcond =>
      refine Or.inr ?_
      unfold totalGateHit at hcond ⊢
      rw [postSendSuccess_totalLimit, postSendSuccess_sentTotal]
      exact hcond
    · rw [reset_status] at hc
      exact Or.inl hc

theorem dispatchPhase_calls (env : RunEnv) (st1 : Store) (i : Nat) (c : Int) :
    ∀ p ∈ (dispatchPhase env st1 i c).calls, p.1 = i := by
  intro p hp
  unfold dispatchPhase at hp
  split at hp <;> try split at hp
  all_goals simp at hp
  all_goals (subst hp; rfl)

theorem run_one_task_calls (env : RunEnv) (st : Store) (i : Nat) :
    ∀ p ∈ (run_one_task env st i).calls, p.1 = i := by
  intro p hp
  unfold run_one_task at hp
  split at hp
  · simp at hp
  · split at hp
    · simp at hp
    · split at hp
      · simp at hp
      · split at hp
        · simp at hp
        · split at hp
          · simp at hp
          · split at hp
            · simp at hp
            · split at hp
              · simp at hp
              · dsimp only at hp
                split at hp
                · simp at hp
                · split at hp
                  · simp at hp
                  · split at hp
                    · simp at hp
                    · exact dispatchPhase_calls env _ i _ p hp

/-- C2: for a task with `totalLimit > 0`, the scheduler marks it
Completed exactly when its total quota is reached — (a) a task the
cycle newly marks Completed has `totalLimit ≠ 0 ∧ sentTotal ≥
totalLimit`; (b) a selected task that reaches the pre-send gate with
the quota met is marked Completed; (c) the post-send update marks
Completed exactly when the incremented `sentTotal` meets a nonzero
`totalLimit`; (d) no dispatch call is ever made for a Completed
task. -/
theorem C2_total_limit_completed (env : CycleEnv) (st : Store)
    (hids : (st.tasks.map Task.id).Nodup) :
    (∀ t' ∈ (workerCycle env st).st.tasks, t'.status = Status.completed →
      ∃ t ∈ st.tasks, t.id = t'.id ∧
        (t.status = Status.completed ∨ totalGateHit t')) ∧
    (∀ t, selectTask st.tasks = some t →
      ∀ s, getSess st t.sessionId = some s → s.isActive = true →
        env.run.clientOk = true →
        ¬ dailyGateHit (reset_daily_if_needed env.run.now t) →
        totalGateHit (reset_daily_if_needed env.run.now t) →
        ∃ t', getTask (workerCycle env st).st t.id = some t' ∧
          t'.status = Status.completed) ∧
    (∀ u : Task, u.status = Status.active → u.totalLimit ≠ 0 →
      ((postSendSuccess env.run.now u).status = Status.completed ↔
        u.totalLimit ≤ (u.sentTotal : Int) + 1)) ∧
    (∀ t ∈ st.tasks, t.status = Status.completed →
      ∀ p ∈ (workerCycle env st).calls, p.1 ≠ t.id) := by
  refine ⟨?_, ?_, ?_, ?_⟩
  · intro t' ht' hc
    obtain ⟨t, htm, hstep⟩ := workerCycle_exists_step env st hids t' ht'
    exact ⟨t, htm, (taskStep_id hstep).symm, taskStep_completed hstep hc⟩
  · intro t hsel s hs hsa hcl hd htg
    obtain ⟨htm, hact, _⟩ := selectTask_some_spec hsel
    have h0 : getTask st t.id = some t := findTask_of_mem hids htm
    rw [workerCycle_st, hsel]
    dsimp only
    rw [run_total_gate_eq env.run st t.id h0 hact hs hsa hcl hd htg]
    have g1 : getTask (updTask st t.id (reset_daily_if_needed env.run.now)) t.id =
        some (reset_daily_if_needed env.run.now t) :=
      getTask_updTask_self (reset_id env.run.now) h0
    have g2 := getTask_updTask_self
      (f := fun u => ({ u with status := .completed } : Task)) (fun u => rfl) g1
    exact ⟨_, g2, rfl⟩
  · intro u hact hne
    rw [postSendSuccess_status]
    by_cases hcond : totalGateHit (bumped env.run.now u)
    · rw [if_pos hcond]
      unfold totalGateHit at hcond
      simp only [bumped] at hcond
      constructor
      · intro _
        have := hcond.2
        push_cast at this ⊢
        omega
      · intro _
        rfl
    · rw [if_neg hcond]
      unfold totalGateHit at hcond
      push_neg at hcond
      simp only [bumped] at hcond
      constructor
      · intro hcomp
        rw [hact] at hcomp
        exact absurd hcomp (by simp)
      · intro hle
        have := hcond hne
        push_cast at this
        omega
  · intro t htm hcomp p hp hpt
    rw [workerCycle_calls] at hp
    cases hsel : selectTask st.tasks with
    | none =>
      rw [hsel] at hp
      simp at hp
    | some task =>
      rw [hsel] at hp
      obtain ⟨htaskm, hactive, _⟩ := selectTask_some_spec hsel
      have hpi := run_one_task_calls env.run st task.id p hp
      have : task = t := nodup_task_eq hids htaskm htm (hpi ▸ hpt)
      rw [this, hcomp] at hactive
      exact absurd hactive (by simp)

/-- Witness for C2 on a store whose single active task has
`totalLimit = 1 = sentTotal`. -/
theorem C2_total_limit_completed_witness :
    (∀ t' ∈ (workerCycle ⟨wEnv, 0⟩ wStoreC2).st.tasks,
      t'.status = Status.completed →
      ∃ t ∈ wStoreC2.tasks, t.id = t'.id ∧
        (t.status = Status.completed ∨ totalGateHit t')) ∧
    (∀ t, selectTask wStoreC2.tasks = some t →
      ∀ s, getSess wStoreC2 t.sessionId = some s → s.isActive = true →
        (⟨wEnv, 0⟩ : CycleEnv).run.clientOk = true →
        ¬ dailyGateHit (reset_daily_if_needed (⟨wEnv, 0⟩ : CycleEnv).run.now t) →
        totalGateHit (reset_daily_if_needed (⟨wEnv, 0⟩ : CycleEnv).run.now t) →
        ∃ t', getTask (workerCycle ⟨wEnv, 0⟩ wStoreC2).st t.id = some t' ∧
          t'.status = Status.completed) ∧
    (∀ u : Task, u.status = Status.active → u.totalLimit ≠ 0 →
      ((postSendSuccess (⟨wEnv, 0⟩ : CycleEnv).run.now u).status = Status.completed ↔
        u.totalLimit ≤ (u.sentTotal : Int) + 1)) ∧
    (∀ t ∈ wStoreC2.tasks, t.status = Status.completed →
      ∀ p ∈ (workerCycle ⟨wEnv, 0⟩ wStoreC2).calls, p.1 ≠ t.id) :=
  C2_total_limit_completed ⟨wEnv, 0⟩ wStoreC2 (by decide)

/-! ### Outcome-recording lemmas -/

theorem run_empty_targets_eq (env : RunEnv) (st : Store) (i : Nat) {t : Task}
    (h0 : getTask st i = some t) (hact : t.status = Status.active)
    {s : Sess} (h2 : getSess st t.sessionId = some s) (h3 : s.isActive = true)
    (h4 : env.clientOk = true)
    (hd : ¬ dailyGateHit (reset_daily_if_needed env.now t))
    (htg : ¬ totalGateHit (reset_daily_if_needed env.now t))
    (he : (reset_daily_if_needed env.now t).targets.isEmpty = true) :
    run_one_task env st i =
      ⟨updTask st i (reset_daily_if_needed env.now), [], none⟩ := by
  simp [run_one_task, h0, hact, h2, h3, h4, hd, htg, he]

theorem getTask_recordOutcome {st : Store} {i : Nat} {u : Task}
    (hu : getTask st i = some u) (chat : Int) (now : Nat) (b : Bool) (s : String) :
    getTask (recordOutcome st i chat now b s) i =
      some (if b then postSendSuccess now u
            else { u with errorMessage := some s }) := by
  unfold recordOutcome
  rw [hu]
  cases b with
  | true =>
    have hu1 : getTask (addSendLog st ⟨i, chat, true, s⟩) i = some u := hu
    simpa using getTask_updTask_self (postSendSuccess_id now) hu1
  | false =>
    have hu1 : getTask (addSendLog st ⟨i, chat, false, s⟩) i = some u := hu
    have := getTask_updTask_self
      (f := fun v => ({ v with errorMessage := some s } : Task)) (fun v => rfl) hu1
    simpa using this

theorem recordOutcome_sendLogs {st : Store} {i : Nat} {u : Task}
    (hu : getTask st i = some u) (chat : Int) (now : Nat) (b : Bool) (s : String) :
    (recordOutcome st i chat now b s).sendLogs =
      st.sendLogs ++ [⟨i, chat, b, s⟩] := by
  unfold recordOutcome
  rw [hu]
  cases b <;> rfl

theorem recordOutcome_errorLogs {st : Store} {i : Nat} {u : Task}
    (hu : getTask st i = some u) (chat : Int) (now : Nat) (b : Bool) (s : String) :
    (recordOutcome st i chat now b s).errorLogs =
      st.errorLogs ++
        (if b then [] else [⟨some i, "error", FAIL_LOG_MSG, some s⟩]) := by
  unfold recordOutcome
  rw [hu]
  cases b with
  | true => simp [addSendLog, updTask]
  | false => simp [addSendLog, addErrorLog, updTask]

theorem sendLogs_addErrorLog (st : Store) (l : ErrorEvent) :
    (addErrorLog st l).sendLogs = st.sendLogs := rfl

theorem errorLogs_addSendLog (st : Store) (l : SendAttempt) :
    (addSendLog st l).errorLogs = st.errorLogs := rfl

theorem sendLogs_updTask (st : Store) (i : Nat) (f : Task → Task) :
    (updTask st i f).sendLogs = st.sendLogs := rfl

theorem errorLogs_updTask (st : Store) (i : Nat) (f : Task → Task) :
    (updTask st i f).errorLogs = st.errorLogs := rfl

theorem errorLogs_addErrorLog (st : Store) (l : ErrorEvent) :
    (addErrorLog st l).errorLogs = st.errorLogs ++ [l] := rfl

theorem workerCycle_raised (env : CycleEnv) (st : Store) :
    (workerCycle env st).raised =
      match selectTask st.tasks with
      | none => none
      | some task => (run_one_task env.run st task.id).raised := by
  unfold workerCycle
  cases hsel : selectTask st.tasks with
  | none => rfl
  | some task =>
    cases hr : (run_one_task env.run st task.id).raised with
    | some m => simp only [hr]
    | none =>
      simp only [hr]
      cases hg : getTask (run_one_task env.run st task.id).st task.id <;> simp only [hg]

theorem dispatchPhase_sendLogs (env : RunEnv) (st1 : Store) (i : Nat)
    (c : Int) {u : Task} (hu : getTask st1 i = some u) :
    (dispatchPhase env st1 i c).st.sendLogs =
      match finalOutcome env.call1 env.call2 with
      | some (b, s) => st1.sendLogs ++ [⟨i, c, b, s⟩]
      | none => st1.sendLogs := by
  cases hc1 : env.call1 with
  | ret b s =>
    simp [dispatchPhase, finalOutcome, hc1, recordOutcome_sendLogs hu]
  | exc s =>
    simp [dispatchPhase, finalOutcome, hc1, recordOutcome_sendLogs hu]
  | floodWait n =>
    cases hc2 : env.call2 with
    | ret b s =>
      have hu3 : getTask (addErrorLog st1 ⟨some i, "error", "FloodWait",
          some (toString n)⟩) i = some u := hu
      simp [dispatchPhase, finalOutcome, hc1, hc2,
        recordOutcome_sendLogs hu3, sendLogs_addErrorLog]
    | floodWait n2 =>
      simp [dispatchPhase, finalOutcome, hc1, hc2, sendLogs_addErrorLog]
    | exc s =>
      simp [dispatchPhase, finalOutcome, hc1, hc2, sendLogs_addErrorLog]

theorem dispatchPhase_lastResetAt (env : RunEnv) (st1 : Store) (i : Nat)
    (c : Int) {u : Task} (hu : getTask st1 i = some u) :
    ∃ t', getTask (dispatchPhase env st1 i c).st i = some t' ∧
      t'.lastResetAt = u.lastResetAt := by
  cases hc1 : env.call1 with
  | ret b s =>
    cases b with
    | true =>
      refine ⟨postSendSuccess env.now u, ?_, postSendSuccess_lastResetAt env.now u⟩
      have := getTask_recordOutcome hu c env.now true s
      simpa [dispatchPhase, hc1] using this
    | false =>
      refine ⟨{ u with errorMessage := some s }, ?_, rfl⟩
      have := getTask_recordOutcome hu c env.now false s
      simpa [dispatchPhase, hc1] using this
  | exc s =>
    refine ⟨{ u with errorMessage := some s }, ?_, rfl⟩
    have := getTask_recordOutcome hu c env.now false s
    simpa [dispatchPhase, hc1] using this
  | floodWait n =>
    have hu3 : getTask (addErrorLog st1 ⟨some i, "error", "FloodWait",
        some (toString n)⟩) i = some u := hu
    cases hc2 : env.call2 with
    | ret b s =>
      cases b with
      | true =>
        refine ⟨postSendSuccess env.now u, ?_, postSendSuccess_lastResetAt env.now u⟩
        have := getTask_recordOutcome hu3 c env.now true s
        simpa [dispatchPhase, hc1, hc2] using this
      | false =>
        refine ⟨{ u with errorMessage := some s }, ?_, rfl⟩
        have := getTask_recordOutcome hu3 c env.now false s
        simpa [dispatchPhase, hc1, hc2] using this
    | floodWait n2 =>
      exact ⟨u, by simp [dispatchPhase, hc1, hc2, hu3], rfl⟩
    | exc s =>
      exact ⟨u, by simp [dispatchPhase, hc1, hc2, hu3], rfl⟩

/-- C9: `_need_reset_daily` is true exactly when `last_reset_at` is
null or its calendar date precedes the current date; when true the
reset zeroes `sentToday` and stamps `lastResetAt := now`, and this
update is part of the committed state of the cycle in every branch —
before, and independently of, any send that may follow. -/
theorem C9_daily_reset (env : RunEnv) (st : Store) (i : Nat) :
    (∀ (now : Nat) (t : Task),
      need_reset_daily now t = true ↔
        t.lastResetAt = none ∨
        ∃ r, t.lastResetAt = some r ∧ dayOf r < dayOf now) ∧
    (∀ (now : Nat) (t : Task), need_reset_daily now t = true →
      reset_daily_if_needed now t =
        { t with sentToday := 0, lastResetAt := some now }) ∧
    (∀ t : Task, (st.tasks.map Task.id).Nodup →
      getTask st i = some t → t.status = Status.active →
      ∀ s, getSess st t.sessionId = some s → s.isActive = true →
        env.clientOk = true → need_reset_daily env.now t = true →
        ∃ t', getTask (run_one_task env st i).st i = some t' ∧
          t'.lastResetAt = some env.now) := by
  refine ⟨?_, ?_, ?_⟩
  · intro now t
    unfold need_reset_daily
    cases h : t.lastResetAt with
    | none => simp
    | some r => simp [Nat.lt_iff_add_one_le]
  · intro now t h
    unfold reset_daily_if_needed
    rw [h]
    simp
  · intro t hids h0 hact s hs hsa hcl hneed
    have hrst : (reset_daily_if_needed env.now t).lastResetAt = some env.now :=
      reset_lastResetAt_of_need hneed
    have hu : getTask (updTask st i (reset_daily_if_needed env.now)) i =
        some (reset_daily_if_needed env.now t) :=
      getTask_updTask_self (reset_id env.now) h0
    by_cases hd : dailyGateHit (reset_daily_if_needed env.now t)
    · rw [run_daily_gate_eq env st i h0 hact hs hsa hcl hd]
      exact ⟨_, hu, hrst⟩
    · by_cases htg : totalGateHit (reset_daily_if_needed env.now t)
      · rw [run_total_gate_eq env st i h0 hact hs hsa hcl hd htg]
        have g2 := getTask_updTask_self
          (f := fun v => ({ v with status := .completed } : Task)) (fun v => rfl) hu
        exact ⟨_, g2, hrst⟩
      · cases he : (reset_daily_if_needed env.now t).targets.isEmpty with
        | true =>
          rw [run_empty_targets_eq env st i h0 hact hs hsa hcl hd htg he]
          exact ⟨_, hu, hrst⟩
        | false =>
          rw [run_dispatch_eq env st i h0 hact hs hsa hcl hd htg he]
          obtain ⟨t', hg, hl⟩ := dispatchPhase_lastResetAt env _ i _ hu
          exact ⟨t', hg, hl.trans hrst⟩

/-- Witness for C9: a task whose last reset was on day 0, run at a
time on day 1, comes out of the cycle with the reset stamped. -/
theorem C9_daily_reset_witness :
    ∃ t', getTask (run_one_task ⟨90000, true, 0, .ret true ("OK"),
        .ret true ("OK")⟩ wStore 1).st 1 = some t' ∧
      t'.lastResetAt =
        some (RunEnv.now ⟨90000, true, 0, .ret true ("OK"), .ret true ("OK")⟩) :=
  (C9_daily_reset ⟨90000, true, 0, .ret true ("OK"), .ret true ("OK")⟩
      wStore 1).2.2 wTask (by decide) (by decide) (by decide)
    ⟨10, true⟩ (by decide) (by decide) (by decide) (by decide)

/-- C8: when the pre-send gate skips a selected task because its daily
limit is exhausted (and no reset is due), the cycle performs no
dispatch, appends no log and changes nothing in the store — the task
stays Active — yet the loop still draws its sleep from the task's
configured interval, which lies inside `[intervalMin, intervalMax]`
for a well-formed configuration. -/
theorem C8_daily_skip (env : CycleEnv) (st : Store)
    (hids : (st.tasks.map Task.id).Nodup) (t : Task)
    (hsel : selectTask st.tasks = some t)
    (s : Sess) (hs : getSess st t.sessionId = some s) (hsa : s.isActive = true)
    (hcl : env.run.clientOk = true)
    (hnr : need_reset_daily env.run.now t = false)
    (hdl : 0 < t.dailyLimit) (hst : t.dailyLimit ≤ (t.sentToday : Int)) :
    (workerCycle env st).st = st ∧
    (workerCycle env st).calls = [] ∧
    (workerCycle env st).raised = none ∧
    (workerCycle env st).sleep = .interval (computeDelay t env.r) ∧
    (0 ≤ env.r → env.r ≤ 1 → 20 ≤ t.intervalMinSec →
      t.intervalMinSec ≤ t.intervalMaxSec →
      (t.intervalMinSec : ℚ) ≤ computeDelay t env.r ∧
      computeDelay t env.r ≤ (t.intervalMaxSec : ℚ)) := by
  obtain ⟨htm, hact, _⟩ := selectTask_some_spec hsel
  have h0 : getTask st t.id = some t := findTask_of_mem hids htm
  have hd : dailyGateHit (reset_daily_if_needed env.run.now t) := by
    rw [reset_of_not_need hnr]
    exact ⟨hdl.ne', hst⟩
  have hrun : run_one_task env.run st t.id = ⟨st, [], none⟩ := by
    rw [run_daily_gate_eq env.run st t.id h0 hact hs hsa hcl hd,
      updTask_reset_noop st t.id hids h0 hnr]
  have hcyc : workerCycle env st = ⟨st, [], none, .interval (computeDelay t env.r)⟩ := by
    unfold workerCycle
    rw [hsel]
    dsimp only
    rw [hrun]
    dsimp only
    rw [h0]
  refine ⟨by rw [hcyc], by rw [hcyc], by rw [hcyc], by rw [hcyc], ?_⟩
  intro hr0 hr1 hm hmm
  unfold computeDelay
  dsimp only
  rw [max_eq_right hm, max_eq_right hmm]
  have hd0 : (0 : ℚ) ≤ (t.intervalMaxSec : ℚ) - (t.intervalMinSec : ℚ) := by
    rw [sub_nonneg]
    exact_mod_cast hmm
  constructor
  · have := mul_nonneg hr0 hd0
    linarith
  · have := mul_le_mul_of_nonneg_right hr1 hd0
    linarith

/-- Witness for C8 on a store whose task has used up its daily limit. -/
theorem C8_daily_skip_witness :
    (workerCycle ⟨wEnv, 0⟩ wStoreSkip).st = wStoreSkip ∧
    (workerCycle ⟨wEnv, 0⟩ wStoreSkip).calls = [] ∧
    (workerCycle ⟨wEnv, 0⟩ wStoreSkip).raised = none ∧
    (workerCycle ⟨wEnv, 0⟩ wStoreSkip).sleep =
      .interval (computeDelay wTaskUsed (0 : ℚ)) ∧
    ((0 : ℚ) ≤ 0 → (0 : ℚ) ≤ 1 →
      20 ≤ wTaskUsed.intervalMinSec →
      wTaskUsed.intervalMinSec ≤ wTaskUsed.intervalMaxSec →
      (wTaskUsed.intervalMinSec : ℚ) ≤ computeDelay wTaskUsed (0 : ℚ) ∧
      computeDelay wTaskUsed (0 : ℚ) ≤ (wTaskUsed.intervalMaxSec : ℚ)) :=
  C8_daily_skip ⟨wEnv, 0⟩ wStoreSkip (by decide) wTaskUsed
    (by decide) ⟨10, true⟩ (by decide) (by decide) (by decide) (by decide)
    (by decide) (by decide)

/-- C10: the inter-send delay of a cycle is drawn from the interval
`[max(20, intervalMin), max(max(20, intervalMin), intervalMax)]` of the
task row re-read after the cycle: the delay is at least 20 seconds, the
lower bound never exceeds the upper bound whatever the stored interval
values, and no upper clamp is applied — the upper bound is always at
least `intervalMax`, also beyond 900. -/
theorem C10_delay_clamp :
    (∀ (t : Task) (r : ℚ), 0 ≤ r → r ≤ 1 →
      (20 : ℚ) ≤ computeDelay t r ∧
      ((max 20 t.intervalMinSec : Int) : ℚ) ≤ computeDelay t r ∧
      computeDelay t r ≤
        ((max (max 20 t.intervalMinSec) t.intervalMaxSec : Int) : ℚ) ∧
      (t.intervalMaxSec : ℚ) ≤
        ((max (max 20 t.intervalMinSec) t.intervalMaxSec : Int) : ℚ)) ∧
    (∀ (env : CycleEnv) (st : Store) (task t' : Task),
      selectTask st.tasks = some task →
      (run_one_task env.run st task.id).raised = none →
      getTask (run_one_task env.run st task.id).st task.id = some t' →
      (workerCycle env st).sleep = .interval (computeDelay t' env.r)) := by
  constructor
  · intro t r hr0 hr1
    have h1 : (20 : Int) ≤ max 20 t.intervalMinSec := le_max_left _ _
    have h2 : max 20 t.intervalMinSec ≤
        max (max 20 t.intervalMinSec) t.intervalMaxSec := le_max_left _ _
    have h3 : t.intervalMaxSec ≤
        max (max 20 t.intervalMinSec) t.intervalMaxSec := le_max_right _ _
    have hd0 : (0 : ℚ) ≤
        ((max (max 20 t.intervalMinSec) t.intervalMaxSec : Int) : ℚ) -
        ((max 20 t.intervalMinSec : Int) : ℚ) := by
      rw [sub_nonneg]
      exact_mod_cast h2
    have hlow : ((max 20 t.intervalMinSec : Int) : ℚ) ≤ computeDelay t r := by
      unfold computeDelay
      dsimp only
      have := mul_nonneg hr0 hd0
      linarith
    refine ⟨?_, hlow, ?_, by exact_mod_cast h3⟩
    · have : (20 : ℚ) ≤ ((max 20 t.intervalMinSec : Int) : ℚ) := by
        exact_mod_cast h1
      linarith
    · unfold computeDelay
      dsimp only
      have := mul_le_mul_of_nonneg_right hr1 hd0
      linarith
  · intro env st task t' hsel hraised hget
    unfold workerCycle
    rw [hsel]
    dsimp only
    rw [hraised]
    dsimp only
    rw [hget]

/-- Witness for C10 at a stored configuration violating
`20 ≤ intervalMin ≤ intervalMax ≤ 900` (min 5, max 1000), and at a
concrete cycle. -/
theorem C10_delay_clamp_witness :
    ((20 : ℚ) ≤ computeDelay wTaskBad 1 ∧
      ((max 20 wTaskBad.intervalMinSec : Int) : ℚ) ≤ computeDelay wTaskBad 1 ∧
      computeDelay wTaskBad 1 ≤
        ((max (max 20 wTaskBad.intervalMinSec) wTaskBad.intervalMaxSec : Int) : ℚ) ∧
      (wTaskBad.intervalMaxSec : ℚ) ≤
        ((max (max 20 wTaskBad.intervalMinSec) wTaskBad.intervalMaxSec : Int) : ℚ)) ∧
    (workerCycle ⟨wEnv, 0⟩ wStoreSkip).sleep =
      .interval (computeDelay wTaskUsed ((0 : ℚ))) :=
  ⟨C10_delay_clamp.1 wTaskBad 1 (by decide) (by decide),
   C10_delay_clamp.2 ⟨wEnv, 0⟩ wStoreSkip wTaskUsed wTaskUsed
      (by decide) (by decide) (by decide)⟩

theorem send_or_forward_one_blocked {t : Task} {e : DispatchEnv}
    (hearly : e.early = none) (hfw : t.messageType = "forward")
    {p : Int × Int} (hsome : t.forwardSource = some p)
    (hblk : isBlocked e.albumText = true) :
    send_or_forward_one t e = .ret false BLOCK_MSG := by
  simp [send_or_forward_one, hearly, hfw, hsome, hblk]

/-- C6: a forward dispatch whose combined album text matches a
blocklist phrase fails: one failed `SendAttempt` with the block reason
is appended, `errorMessage` is set to the block reason, and the task's
`sentTotal`, `sentToday` and `lastSentAt` are unchanged. -/
theorem C6_blocklist_failure (env : CycleEnv) (st : Store)
    (hids : (st.tasks.map Task.id).Nodup) (t : Task)
    (hsel : selectTask st.tasks = some t)
    (s : Sess) (hs : getSess st t.sessionId = some s) (hsa : s.isActive = true)
    (hcl : env.run.clientOk = true)
    (hnr : need_reset_daily env.run.now t = false)
    (hd : ¬ dailyGateHit t) (htg : ¬ totalGateHit t)
    (he : t.targets.isEmpty = false)
    (e : DispatchEnv) (hearly : e.early = none)
    (hfw : t.messageType = "forward") (p : Int × Int)
    (hsome : t.forwardSource = some p)
    (hblk : isBlocked e.albumText = true)
    (hc1 : env.run.call1 = callOf (send_or_forward_one t e)) :
    (workerCycle env st).st.sendLogs = st.sendLogs ++
      [⟨t.id, t.targets.getD (env.run.pick % t.targets.length) 0, false, BLOCK_MSG⟩] ∧
    ∃ t', getTask (workerCycle env st).st t.id = some t' ∧
      t'.sentToday = t.sentToday ∧ t'.sentTotal = t.sentTotal ∧
      t'.lastSentAt = t.lastSentAt ∧ t'.errorMessage = some BLOCK_MSG := by
  obtain ⟨htm, hact, _⟩ := selectTask_some_spec hsel
  have h0 : getTask st t.id = some t := findTask_of_mem hids htm
  have hrt : reset_daily_if_needed env.run.now t = t := reset_of_not_need hnr
  have hd' : ¬ dailyGateHit (reset_daily_if_needed env.run.now t) := by
    rw [hrt]
    exact hd
  have htg' : ¬ totalGateHit (reset_daily_if_needed env.run.now t) := by
    rw [hrt]
    exact htg
  have he' : (reset_daily_if_needed env.run.now t).targets.isEmpty = false := by
    rw [hrt]
    exact he
  have hnoop : updTask st t.id (reset_daily_if_needed env.run.now) = st :=
    updTask_reset_noop st t.id hids h0 hnr
  have hcall : env.run.call1 = CallOutcome.ret false BLOCK_MSG := by
    rw [hc1, send_or_forward_one_blocked hearly hfw hsome hblk]
    rfl
  have hchat : (reset_daily_if_needed env.run.now t).targets.getD
      (env.run.pick % (reset_daily_if_needed env.run.now t).targets.length) 0 =
      t.targets.getD (env.run.pick % t.targets.length) 0 := by
    rw [hrt]
  have hrun : run_one_task env.run st t.id =
      dispatchPhase env.run st t.id
        (t.targets.getD (env.run.pick % t.targets.length) 0) := by
    rw [run_dispatch_eq env.run st t.id h0 hact hs hsa hcl hd' htg' he',
      hnoop, hchat]
  have hdisp : dispatchPhase env.run st t.id
      (t.targets.getD (env.run.pick % t.targets.length) 0) =
      ⟨recordOutcome st t.id (t.targets.getD (env.run.pick % t.targets.length) 0)
        env.run.now false BLOCK_MSG,
       [(t.id, t.targets.getD (env.run.pick % t.targets.length) 0)], none⟩ := by
    unfold dispatchPhase
    rw [hcall]
  constructor
  · rw [workerCycle_st, hsel]
    dsimp only
    rw [hrun, hdisp]
    exact recordOutcome_sendLogs h0 _ env.run.now false BLOCK_MSG
  · refine ⟨{ t with errorMessage := some BLOCK_MSG }, ?_, rfl, rfl, rfl, rfl⟩
    rw [workerCycle_st, hsel]
    dsimp only
    rw [hrun, hdisp]
    have := getTask_recordOutcome h0
      (t.targets.getD (env.run.pick % t.targets.length) 0) env.run.now false BLOCK_MSG
    simpa using this

/-- Witness for C6 on a concrete forward task whose album text holds a
blocked phrase. -/
theorem C6_blocklist_failure_witness :
    (workerCycle ⟨wEnvF, 0⟩ wStoreF).st.sendLogs = wStoreF.sendLogs ++
      [⟨wTaskF.id, wTaskF.targets.getD (wEnvF.pick % wTaskF.targets.length) 0,
        false, BLOCK_MSG⟩] ∧
    ∃ t', getTask (workerCycle ⟨wEnvF, 0⟩ wStoreF).st wTaskF.id = some t' ∧
      t'.sentToday = wTaskF.sentToday ∧ t'.sentTotal = wTaskF.sentTotal ∧
      t'.lastSentAt = wTaskF.lastSentAt ∧ t'.errorMessage = some BLOCK_MSG :=
  C6_blocklist_failure ⟨wEnvF, 0⟩ wStoreF (by decide) wTaskF (by decide)
    ⟨10, true⟩ (by decide) (by decide) (by decide) (by decide) (by decide)
    (by decide) (by decide) wDEnvB (by decide) (by decide) (777, 5)
    (by decide) (by decide) (by decide)

/-! ### Rate-limit retry and exception propagation -/

theorem runCycles_cons_none {e : CycleEnv} {st : Store} (es : List CycleEnv)
    (h : (workerCycle e st).raised = none) :
    runCycles (e :: es) st = runCycles es (workerCycle e st).st := by
  conv_lhs => unfold runCycles
  dsimp only
  rw [h]

theorem runCycles_cons_some {e : CycleEnv} {st : Store} {m : String}
    (es : List CycleEnv) (h : (workerCycle e st).raised = some m) :
    runCycles (e :: es) st = ((workerCycle e st).st, true) := by
  conv_lhs => unfold runCycles
  dsimp only
  rw [h]

theorem dispatchPhase_calls_ne_nil (env : RunEnv) (st1 : Store) (i : Nat)
    (c : Int) : (dispatchPhase env st1 i c).calls ≠ [] := by
  unfold dispatchPhase
  split
  · simp
  · simp
  · split <;> simp

/-- C3 (amended): on a rate-limit signal with cooldown `c` the
scheduler records one FloodWait `ErrorEvent` and retries the same
dispatch (same task, same target) exactly once; when the retry
*returns* an outcome `(b, m)` — success or failure — that outcome is
final: no exception escapes, one `SendAttempt` carrying `(b, m)` is
appended, plus one failure `ErrorEvent` when `b` is false.  (A second
rate-limit signal is raised, not returned: it escapes with no
`SendAttempt`; see the counterexample.) -/
theorem C3_flood_retry (env : CycleEnv) (st : Store)
    (hids : (st.tasks.map Task.id).Nodup) (t : Task)
    (hsel : selectTask st.tasks = some t)
    (s : Sess) (hs : getSess st t.sessionId = some s) (hsa : s.isActive = true)
    (hcl : env.run.clientOk = true)
    (hnr : need_reset_daily env.run.now t = false)
    (hd : ¬ dailyGateHit t) (htg : ¬ totalGateHit t)
    (he : t.targets.isEmpty = false)
    (c : Nat) (b : Bool) (m : String)
    (hc1 : env.run.call1 = .floodWait c) (hc2 : env.run.call2 = .ret b m) :
    (workerCycle env st).calls =
      [(t.id, t.targets.getD (env.run.pick % t.targets.length) 0),
       (t.id, t.targets.getD (env.run.pick % t.targets.length) 0)] ∧
    (workerCycle env st).raised = none ∧
    (workerCycle env st).st.sendLogs = st.sendLogs ++
      [⟨t.id, t.targets.getD (env.run.pick % t.targets.length) 0, b, m⟩] ∧
    (workerCycle env st).st.errorLogs =
      (st.errorLogs ++ [⟨some t.id, "error", "FloodWait", some (toString c)⟩]) ++
        (if b then [] else [⟨some t.id, "error", FAIL_LOG_MSG, some m⟩]) := by
  obtain ⟨htm, hact, _⟩ := selectTask_some_spec hsel
  have h0 : getTask st t.id = some t := findTask_of_mem hids htm
  have hrt : reset_daily_if_needed env.run.now t = t := reset_of_not_need hnr
  have hd' : ¬ dailyGateHit (reset_daily_if_needed env.run.now t) := by
    rw [hrt]
    exact hd
  have htg' : ¬ totalGateHit (reset_daily_if_needed env.run.now t) := by
    rw [hrt]
    exact htg
  have he' : (reset_daily_if_needed env.run.now t).targets.isEmpty = false := by
    rw [hrt]
    exact he
  have hnoop : updTask st t.id (reset_daily_if_needed env.run.now) = st :=
    updTask_reset_noop st t.id hids h0 hnr
  have hchat : (reset_daily_if_needed env.run.now t).targets.getD
      (env.run.pick % (reset_daily_if_needed env.run.now t).targets.length) 0 =
      t.targets.getD (env.run.pick % t.targets.length) 0 := by
    rw [hrt]
  have hrun : run_one_task env.run st t.id =
      dispatchPhase env.run st t.id
        (t.targets.getD (env.run.pick % t.targets.length) 0) := by
    rw [run_dispatch_eq env.run st t.id h0 hact hs hsa hcl hd' htg' he',
      hnoop, hchat]
  have hufe : getTask (addErrorLog st
      ⟨some t.id, "error", "FloodWait", some (toString c)⟩) t.id = some t := h0
  have hdisp : dispatchPhase env.run st t.id
      (t.targets.getD (env.run.pick % t.targets.length) 0) =
      ⟨recordOutcome
        (addErrorLog st ⟨some t.id, "error", "FloodWait", some (toString c)⟩)
        t.id (t.targets.getD (env.run.pick % t.targets.length) 0) env.run.now b m,
       [(t.id, t.targets.getD (env.run.pick % t.targets.length) 0),
        (t.id, t.targets.getD (env.run.pick % t.targets.length) 0)], none⟩ := by
    simp only [dispatchPhase, hc1, hc2]
  refine ⟨?_, ?_, ?_, ?_⟩
  · rw [workerCycle_calls, hsel]
    dsimp only
    rw [hrun, hdisp]
  · rw [workerCycle_raised, hsel]
    dsimp only
    rw [hrun, hdisp]
  · rw [workerCycle_st, hsel]
    dsimp only
    rw [hrun, hdisp]
    rw [recordOutcome_sendLogs hufe, sendLogs_addErrorLog]
  · rw [workerCycle_st, hsel]
    dsimp only
    rw [hrun, hdisp]
    rw [recordOutcome_errorLogs hufe, errorLogs_addErrorLog]

/-- Witness for C3 on a concrete store: first call rate-limited with
cooldown 3, retry returns a failure. -/
theorem C3_flood_retry_witness :
    (workerCycle ⟨⟨1000, true, 0, .floodWait 3, .ret false ("boom")⟩, 0⟩
        wStore).calls = [(1, 100), (1, 100)] ∧
    (workerCycle ⟨⟨1000, true, 0, .floodWait 3, .ret false ("boom")⟩, 0⟩
        wStore).raised = none ∧
    (workerCycle ⟨⟨1000, true, 0, .floodWait 3, .ret false ("boom")⟩, 0⟩
        wStore).st.sendLogs = wStore.sendLogs ++ [⟨1, 100, false, "boom"⟩] ∧
    (workerCycle ⟨⟨1000, true, 0, .floodWait 3, .ret false ("boom")⟩, 0⟩
        wStore).st.errorLogs =
      (wStore.errorLogs ++ [⟨some 1, "error", "FloodWait", some (toString 3)⟩]) ++
        (if false then [] else [⟨some 1, "error", FAIL_LOG_MSG, some ("boom")⟩]) := by
  have h := C3_flood_retry ⟨⟨1000, true, 0, .floodWait 3, .ret false ("boom")⟩, 0⟩
    wStore (by decide) wTask (by decide) ⟨10, true⟩ (by decide) (by decide)
    (by decide) (by decide) (by decide) (by decide) (by decide)
    3 false ("boom") (by decide) (by decide)
  exact h

/-- Counterexample to C3 as stated: two consecutive rate-limit signals
produce one `ErrorEvent` but NO `SendAttempt` — the second
`FloodWaitError` is raised from inside the first one's handler and
escapes `_run_one_task` instead of becoming a recorded failed
outcome. -/
theorem C3_counterexample :
    (workerCycle ⟨⟨1000, true, 0, .floodWait 3, .floodWait 5⟩, 0⟩ wStore).st.errorLogs =
      [⟨some 1, "error", "FloodWait", some ("3")⟩] ∧
    (workerCycle ⟨⟨1000, true, 0, .floodWait 3, .floodWait 5⟩, 0⟩ wStore).st.sendLogs
      = [] ∧
    (workerCycle ⟨⟨1000, true, 0, .floodWait 3, .floodWait 5⟩, 0⟩ wStore).raised =
      some ("FloodWaitError 5") := by
  decide

/-- C4 (amended): an unexpected exception raised by the *initial*
dispatch call is caught at the per-cycle boundary and converted into a
failed `SendAttempt` plus an `ErrorEvent`, and the worker loop
continues with the next cycle; but an exception raised during the
rate-limit *retry* (a second `FloodWaitError` included) is not caught —
it escapes the cycle and terminates the worker loop. -/
theorem C4_exception_handling (env : CycleEnv) (st : Store)
    (hids : (st.tasks.map Task.id).Nodup) (t : Task)
    (hsel : selectTask st.tasks = some t)
    (s : Sess) (hs : getSess st t.sessionId = some s) (hsa : s.isActive = true)
    (hcl : env.run.clientOk = true)
    (hnr : need_reset_daily env.run.now t = false)
    (hd : ¬ dailyGateHit t) (htg : ¬ totalGateHit t)
    (he : t.targets.isEmpty = false) :
    (∀ m, env.run.call1 = .exc m →
      (workerCycle env st).raised = none ∧
      (workerCycle env st).st.sendLogs = st.sendLogs ++
        [⟨t.id, t.targets.getD (env.run.pick % t.targets.length) 0, false, m⟩] ∧
      (workerCycle env st).st.errorLogs = st.errorLogs ++
        [⟨some t.id, "error", FAIL_LOG_MSG, some m⟩] ∧
      ∀ rest, runCycles (env :: rest) st =
        runCycles rest (workerCycle env st).st) ∧
    (∀ c m, env.run.call1 = .floodWait c → env.run.call2 = .exc m →
      (workerCycle env st).raised = some m ∧
      (workerCycle env st).st.sendLogs = st.sendLogs ∧
      ∀ rest, runCycles (env :: rest) st = ((workerCycle env st).st, true)) := by
  obtain ⟨htm, hact, _⟩ := selectTask_some_spec hsel
  have h0 : getTask st t.id = some t := findTask_of_mem hids htm
  have hrt : reset_daily_if_needed env.run.now t = t := reset_of_not_need hnr
  have hd' : ¬ dailyGateHit (reset_daily_if_needed env.run.now t) := by
    rw [hrt]
    exact hd
  have htg' : ¬ totalGateHit (reset_daily_if_needed env.run.now t) := by
    rw [hrt]
    exact htg
  have he' : (reset_daily_if_needed env.run.now t).targets.isEmpty = false := by
    rw [hrt]
    exact he
  have hnoop : updTask st t.id (reset_daily_if_needed env.run.now) = st :=
    updTask_reset_noop st t.id hids h0 hnr
  have hchat : (reset_daily_if_needed env.run.now t).targets.getD
      (env.run.pick % (reset_daily_if_needed env.run.now t).targets.length) 0 =
      t.targets.getD (env.run.pick % t.targets.length) 0 := by
    rw [hrt]
  have hrun : run_one_task env.run st t.id =
      dispatchPhase env.run st t.id
        (t.targets.getD (env.run.pick % t.targets.length) 0) := by
    rw [run_dispatch_eq env.run st t.id h0 hact hs hsa hcl hd' htg' he',
      hnoop, hchat]
  constructor
  · intro m hc1
    have hdisp : dispatchPhase env.run st t.id
        (t.targets.getD (env.run.pick % t.targets.length) 0) =
        ⟨recordOutcome st t.id
          (t.targets.getD (env.run.pick % t.targets.length) 0)
          env.run.now false m,
         [(t.id, t.targets.getD (env.run.pick % t.targets.length) 0)], none⟩ := by
      simp only [dispatchPhase, hc1]
    have hraised : (workerCycle env st).raised = none := by
      rw [workerCycle_raised, hsel]
      dsimp only
      rw [hrun, hdisp]
    refine ⟨hraised, ?_, ?_, fun rest => runCycles_cons_none rest hraised⟩
    · rw [workerCycle_st, hsel]
      dsimp only
      rw [hrun, hdisp]
      exact recordOutcome_sendLogs h0 _ env.run.now false m
    · rw [workerCycle_st, hsel]
      dsimp only
      rw [hrun, hdisp]
      rw [recordOutcome_errorLogs h0]
      simp
  · intro c m hc1 hc2
    have hdisp : dispatchPhase env.run st t.id
        (t.targets.getD (env.run.pick % t.targets.length) 0) =
        ⟨addErrorLog st ⟨some t.id, "error", "FloodWait", some (toString c)⟩,
         [(t.id, t.targets.getD (env.run.pick % t.targets.length) 0),
          (t.id, t.targets.getD (env.run.pick % t.targets.length) 0)],
         some m⟩ := by
      simp only [dispatchPhase, hc1, hc2]
    have hraised : (workerCycle env st).raised = some m := by
      rw [workerCycle_raised, hsel]
      dsimp only
      rw [hrun, hdisp]
    refine ⟨hraised, ?_, fun rest => runCycles_cons_some rest hraised⟩
    rw [workerCycle_st, hsel]
    dsimp only
    rw [hrun, hdisp]
    rfl

/-- Witness for C4: a first-call exception is converted into a failed
`SendAttempt` and the loop continues. -/
theorem C4_exception_handling_witness :
    (workerCycle ⟨⟨1000, true, 0, .exc ("kaput"), .ret true ("OK")⟩, 0⟩
        wStore).raised = none ∧
    (workerCycle ⟨⟨1000, true, 0, .exc ("kaput"), .ret true ("OK")⟩, 0⟩
        wStore).st.sendLogs = wStore.sendLogs ++ [⟨1, 100, false, "kaput"⟩] ∧
    (workerCycle ⟨⟨1000, true, 0, .exc ("kaput"), .ret true ("OK")⟩, 0⟩
        wStore).st.errorLogs = wStore.errorLogs ++
      [⟨some 1, "error", FAIL_LOG_MSG, some ("kaput")⟩] ∧
    ∀ rest, runCycles (⟨⟨1000, true, 0, .exc ("kaput"), .ret true ("OK")⟩, 0⟩ :: rest)
        wStore =
      runCycles rest
        (workerCycle ⟨⟨1000, true, 0, .exc ("kaput"), .ret true ("OK")⟩, 0⟩
          wStore).st :=
  (C4_exception_handling ⟨⟨1000, true, 0, .exc ("kaput"), .ret true ("OK")⟩, 0⟩
      wStore (by decide) wTask (by decide) ⟨10, true⟩ (by decide) (by decide)
      (by decide) (by decide) (by decide) (by decide) (by decide)).1
    ("kaput") (by decide)

/-- Counterexample to C4 as stated: an exception raised inside a cycle
(a non-FloodWait exception thrown by the rate-limit retry) is NOT
caught — the cycle records no `SendAttempt` and the worker loop
terminates with the exception. -/
theorem C4_counterexample :
    (workerCycle ⟨⟨1000, true, 0, .floodWait 7, .exc ("boom")⟩, 0⟩ wStore).raised =
      some ("boom") ∧
    (workerCycle ⟨⟨1000, true, 0, .floodWait 7, .exc ("boom")⟩, 0⟩ wStore).st.sendLogs
      = [] ∧
    (runCycles [⟨⟨1000, true, 0, .floodWait 7, .exc ("boom")⟩, 0⟩] wStore).2 = true := by
  decide

/-- C7 (amended): a dispatch attempt whose final call *returns* an
outcome `(b, m)` — directly, after the caught-and-converted exception
of the first call, or from the rate-limit retry — appends exactly one
`SendAttempt` carrying the task id, the chosen target, the success
flag and the outcome message; a dispatch attempt does happen
(`calls ≠ []`).  (An attempt whose rate-limit retry raises appends
none; see the counterexample.) -/
theorem C7_one_send_attempt (env : CycleEnv) (st : Store)
    (hids : (st.tasks.map Task.id).Nodup) (t : Task)
    (hsel : selectTask st.tasks = some t)
    (s : Sess) (hs : getSess st t.sessionId = some s) (hsa : s.isActive = true)
    (hcl : env.run.clientOk = true)
    (hnr : need_reset_daily env.run.now t = false)
    (hd : ¬ dailyGateHit t) (htg : ¬ totalGateHit t)
    (he : t.targets.isEmpty = false)
    (b : Bool) (m : String)
    (hfo : finalOutcome env.run.call1 env.run.call2 = some (b, m)) :
    (workerCycle env st).st.sendLogs = st.sendLogs ++
      [⟨t.id, t.targets.getD (env.run.pick % t.targets.length) 0, b, m⟩] ∧
    (workerCycle env st).calls ≠ [] := by
  obtain ⟨htm, hact, _⟩ := selectTask_some_spec hsel
  have h0 : getTask st t.id = some t := findTask_of_mem hids htm
  have hrt : reset_daily_if_needed env.run.now t = t := reset_of_not_need hnr
  have hd' : ¬ dailyGateHit (reset_daily_if_needed env.run.now t) := by
    rw [hrt]
    exact hd
  have htg' : ¬ totalGateHit (reset_daily_if_needed env.run.now t) := by
    rw [hrt]
    exact htg
  have he' : (reset_daily_if_needed env.run.now t).targets.isEmpty = false := by
    rw [hrt]
    exact he
  have hnoop : updTask st t.id (reset_daily_if_needed env.run.now) = st :=
    updTask_reset_noop st t.id hids h0 hnr
  have hchat : (reset_daily_if_needed env.run.now t).targets.getD
      (env.run.pick % (reset_daily_if_needed env.run.now t).targets.length) 0 =
      t.targets.getD (env.run.pick % t.targets.length) 0 := by
    rw [hrt]
  have hrun : run_one_task env.run st t.id =
      dispatchPhase env.run st t.id
        (t.targets.getD (env.run.pick % t.targets.length) 0) := by
    rw [run_dispatch_eq env.run st t.id h0 hact hs hsa hcl hd' htg' he',
      hnoop, hchat]
  constructor
  · rw [workerCycle_st, hsel]
    dsimp only
    rw [hrun]
    rw [dispatchPhase_sendLogs env.run st t.id _ h0, hfo]
  · rw [workerCycle_calls, hsel]
    dsimp only
    rw [hrun]
    exact dispatchPhase_calls_ne_nil env.run st t.id _

/-- Witness for C7: a plain successful dispatch appends exactly one
successful `SendAttempt`. -/
theorem C7_one_send_attempt_witness :
    (workerCycle ⟨wEnv, 0⟩ wStore).st.sendLogs = wStore.sendLogs ++
      [⟨1, 100, true, "OK"⟩] ∧
    (workerCycle ⟨wEnv, 0⟩ wStore).calls ≠ [] :=
  C7_one_send_attempt ⟨wEnv, 0⟩ wStore (by decide) wTask (by decide)
    ⟨10, true⟩ (by decide) (by decide) (by decide) (by decide) (by decide)
    (by decide) (by decide) true ("OK") (by decide)

/-- Counterexample to C7 as stated: a dispatch attempt takes place
(two call invocations) but zero `SendAttempt` records are appended,
because the rate-limit retry raised a second rate-limit signal. -/
theorem C7_counterexample :
    (workerCycle ⟨⟨1000, true, 0, .floodWait 11, .floodWait 13⟩, 0⟩ wStore).calls =
      [(1, 100), (1, 100)] ∧
    (workerCycle ⟨⟨1000, true, 0, .floodWait 11, .floodWait 13⟩, 0⟩
      wStore).st.sendLogs = [] := by
  decide

end Midas
